import Mathlib

/-! wgsl-reflect: reflection passes over a concrete syntax tree.

A shallow embedding of `src/wgsl_reflect/src/reflect.cpp` and of the node
navigation of `src/cppts/include/cppts/node.hpp`.

* a syntax-tree node carries its kind, whether it is named, its source text,
  the field name under which its parent holds it, and its children;
* C++ exceptions and failed `assert`s become the `error` side of `Except`;
* the keyed containers (`m_structures`, `m_functions`, `Function::attributes`)
  are association lists with the unique-key `emplace` of the C++ standard
  library.
-/

set_option autoImplicit false

namespace cppts

/-- A node of the concrete syntax tree: `type()`, `isNamed()`, `str()`, the
field name it has in its parent, and `children()`. -/
inductive Node where
  | mk (type : String) (isNamed : Bool) (str : String) (field : Option String)
      (children : List Node) : Node

namespace Node

/-- Kind of the node: `Node::type()`. -/
def type : Node → String
  | mk t _ _ _ _ => t

/-- Named or anonymous: `Node::isNamed()`. -/
def isNamed : Node → Bool
  | mk _ b _ _ _ => b

/-- Source text of the node: `Node::str()`. -/
def str : Node → String
  | mk _ _ s _ _ => s

/-- Field name of the node in its parent, when it has one. -/
def field : Node → Option String
  | mk _ _ _ f _ => f

/-- All children, named and anonymous: `Node::children()`. -/
def children : Node → List Node
  | mk _ _ _ _ cs => cs

/-- The named children in order: `Node::namedChildren()`. -/
def namedChildren (n : Node) : List Node :=
  n.children.filter Node.isNamed

/-- Number of named children: `Node::namedChildCount()`. -/
def namedChildCount (n : Node) : Nat :=
  n.namedChildren.length

end Node

end cppts

namespace wgsl_reflect

open cppts

/-- The failures of the C++ code: the exception classes it throws, each with
its message, and a failed `assert` with the asserted message. -/
inductive Err where
  | invalid_argument (msg : String)
  | domain_error (msg : String)
  | runtime_error (msg : String)
  | out_of_range (msg : String)
  | assertion (msg : String)
  deriving DecidableEq, Repr

end wgsl_reflect

namespace cppts

open wgsl_reflect

namespace Node

/-- The i-th named child: `Node::namedChild(uint32_t)`, which throws
`std::out_of_range` past the end. -/
def namedChild (n : Node) (i : Nat) : Except Err Node :=
  match n.namedChildren[i]? with
  | some c => .ok c
  | none => .error (.out_of_range "Out of range named child index")

/-- The child held under a field name: `Node::child(const std::string&)`,
which throws `std::out_of_range` when there is none. -/
def child (n : Node) (fieldName : String) : Except Err Node :=
  match n.children.find? (fun c => c.field == some fieldName) with
  | some c => .ok c
  | none => .error (.out_of_range ("No node with name: " ++ fieldName))

/-- The first child, named or not, of a kind: `Node::firstChildOfType`. -/
def firstChildOfType (n : Node) (type : String) : Option Node :=
  n.children.find? (fun c => c.type == type)

/-- The chain `namedChild(0).nextSibling()`, `.nextSibling()`, ... up to the
null node: the children that follow the first named child. -/
def siblingsAfterFirstNamed (n : Node) : List Node :=
  (n.children.dropWhile (fun c => !c.isNamed)).tail

end Node

mutual
/-- The node and its descendants in document order. -/
def Node.preorder : Node → List Node
  | .mk t b s f cs => Node.mk t b s f cs :: preorderList cs
/-- Document order over a list of siblings. -/
def preorderList : List Node → List Node
  | [] => []
  | c :: cs => c.preorder ++ preorderList cs
end

end cppts

namespace wgsl_reflect

open cppts

/-! ## Keyed containers -/

/-- Modelled from the spec: the keyed containers that `reflect.hpp` declares
(`m_structures`, `m_functions`, `Function::attributes`), maps from a name to a
record with one entry per key, as the list of their entries in insertion
order; `find` and `emplace` are those of the unique-key associative
containers of the C++ standard library. -/
def StdMap (β : Type) : Type := List (String × β)

namespace StdMap

variable {β : Type}

/-- The container with no entry. -/
def empty : StdMap β := ([] : List (String × β))

/-- Lookup by key: `find(key)`, `none` standing for `end()`. -/
def find : StdMap β → String → Option β
  | [], _ => none
  | (k, v) :: rest, key => if k = key then some v else find rest key

/-- Insertion by `emplace(key, value)`: the C++ standard library inserts only
when the container has no entry with that key, and otherwise leaves the
container as it is. -/
def emplace (m : StdMap β) (key : String) (value : β) : StdMap β :=
  match m.find key with
  | some _ => m
  | none => List.append m [(key, value)]

end StdMap

/-! ## Records -/

/-- One attribute of a member or parameter. -/
structure InputAttribute where
  name : String
  value : String
  deriving DecidableEq, Repr

/-- One struct member or function parameter. -/
structure Input where
  name : String
  type : String
  attributes : List InputAttribute
  deriving DecidableEq, Repr

/-- A struct declaration: its name and members. -/
structure Structure where
  name : String
  members : List Input
  deriving DecidableEq, Repr

/-- A function declaration: its name, attribute map and inputs. -/
structure Function where
  name : String
  attributes : StdMap String
  inputs : List Input

/-! ## parseInput -/

/-- Body of the loop of `parseInput` over the named children: the state is
the input under construction and `haveName`. -/
def parseInputLoop : List Node → Input → Bool → Except Err (Input × Bool)
  | [], input, haveName => .ok (input, haveName)
  | pchild :: rest, input, haveName =>
    if pchild.type = "variable_identifier_declaration" then
      match pchild.child "name" with
      | .error e => .error e
      | .ok n =>
        match pchild.child "type" with
        | .error e => .error e
        | .ok t => parseInputLoop rest { input with name := n.str, type := t.str } true
    else if pchild.type = "attribute" then
      match pchild.namedChild 0 with
      | .error e => .error e
      | .ok a =>
        match pchild.namedChild 1 with
        | .error e => .error e
        | .ok v =>
          parseInputLoop rest
            { input with attributes := input.attributes ++ [InputAttribute.mk a.str v.str] }
            haveName
    else parseInputLoop rest input haveName

/-- The input parser: `parseInput(cppts::Node)`. -/
def parseInput (node : Node) : Except Err Input :=
  match parseInputLoop node.namedChildren (Input.mk "" "" []) false with
  | .error e => .error e
  | .ok (input, haveName) =>
    if haveName then .ok input else .error (.assertion "Did not find input name")

/-! ## Structure -/

/-- Loop of `Structure::Structure` over the named children. -/
def structureLoop : List Node → List Input → Except Err (List Input)
  | [], members => .ok members
  | child :: rest, members =>
    if child.type ≠ "struct_member" then structureLoop rest members
    else
      match parseInput child with
      | .error e => .error e
      | .ok input => structureLoop rest (members ++ [input])

/-- Constructor `Structure::Structure(cppts::Node)`. -/
def Structure.ctor (node : Node) : Except Err Structure :=
  if node.type ≠ "struct_declaration" then
    .error (.invalid_argument "Given node is not a struct declaration")
  else
    match node.child "name" with
    | .error e => .error e
    | .ok n =>
      match structureLoop node.namedChildren [] with
      | .error e => .error e
      | .ok members => .ok (Structure.mk n.str members)

/-! ## Function -/

/-- Inner loop of the attribute branch of `Function::Function`: the value is
the texts of the siblings in order, the ones that read `(` or `)` skipped. -/
def attributeValueLoop : List Node → String → String
  | [], value => value
  | next :: rest, value =>
    if next.str = "(" ∨ next.str = ")" then attributeValueLoop rest value
    else attributeValueLoop rest (value ++ next.str)

/-- Loop of `Function::Function` over the parameters of a parameter list.
Each parsed input is pushed; when `structLookup` is set and knows the type of
the input just pushed (`inputs.back()`), that input is popped and the members
are pushed one by one. -/
def parameterLoop (structLookup : Option (String → Option Structure)) :
    List Node → List Input → Except Err (List Input)
  | [], inputs => .ok inputs
  | param :: rest, inputs =>
    match parseInput param with
    | .error e => .error e
    | .ok input =>
      let pushed := inputs ++ [input]
      match structLookup with
      | none => parameterLoop structLookup rest pushed
      | some lookup =>
        match lookup input.type with
        | some _struct => parameterLoop structLookup rest (pushed.dropLast ++ _struct.members)
        | none => parameterLoop structLookup rest pushed

/-- Loop of `Function::Function` over the named children. -/
def functionLoop (structLookup : Option (String → Option Structure)) :
    List Node → StdMap String → List Input → Except Err (StdMap String × List Input)
  | [], attributes, inputs => .ok (attributes, inputs)
  | child :: rest, attributes, inputs =>
    if child.type = "attribute" then
      match child.namedChild 0 with
      | .error e => .error e
      | .ok first =>
        functionLoop structLookup rest
          (attributes.emplace first.str (attributeValueLoop child.siblingsAfterFirstNamed ""))
          inputs
    else if child.type = "parameter_list" then
      match parameterLoop structLookup child.namedChildren inputs with
      | .error e => .error e
      | .ok inputs2 => functionLoop structLookup rest attributes inputs2
    else functionLoop structLookup rest attributes inputs

/-- Constructor `Function::Function(cppts::Node, structLookup)`. -/
def Function.ctor (node : Node) (structLookup : Option (String → Option Structure)) :
    Except Err Function :=
  if node.type ≠ "function_declaration" then
    .error (.invalid_argument "Given node is not a function declaration")
  else
    match node.child "name" with
    | .error e => .error e
    | .ok n =>
      match functionLoop structLookup node.namedChildren StdMap.empty [] with
      | .error e => .error e
      | .ok (attributes, inputs) => .ok (Function.mk n.str attributes inputs)

/-- Accessor `Function::attribute(name)`. -/
def Function.attribute (f : Function) (name : String) : Option String :=
  f.attributes.find name

/-! ## Binding -/

/-- Modelled from the spec: the integer type of `Binding::group` and
`Binding::binding` and the `UNSET` sentinel, which `reflect.hpp` declares:
the least and greatest value of the type, and the sentinel. -/
structure IndexType where
  lo : Int
  hi : Int
  UNSET : Int

/-- Value of a run of decimal digits, most significant first. -/
def digitsValue : List Char → Nat → Nat
  | [], acc => acc
  | c :: cs, acc => digitsValue cs (acc * 10 + (c.toNat - 48))

/-- The call `std::from_chars(first, last, value)` in base 10: an optional
minus sign (signed types only) and the longest run of decimal digits. With no
digit, or with a number outside the type, `value` keeps what it held;
otherwise it receives the number. The returned error code is dropped by the
callers. -/
def from_chars (T : IndexType) (text : String) (value : Int) : Int :=
  let cs := text.toList
  let negative := decide (T.lo < 0) && cs.head? == some '-'
  let body := if negative then cs.tail else cs
  let digits := body.takeWhile Char.isDigit
  if digits = [] then value
  else
    let parsed : Int := if negative then -((digitsValue digits 0 : Nat) : Int)
      else ((digitsValue digits 0 : Nat) : Int)
    if T.lo ≤ parsed ∧ parsed ≤ T.hi then parsed else value

/-- Class `\w` of the regular expression: letters, digits and underscore. -/
def isWordChar (c : Char) : Bool :=
  c.isAlphanum || c == '_'

/-- Whether the characters read `<`, one or more word characters, `>`. -/
def matchesTypeParameter (cs : List Char) : Bool :=
  match cs with
  | '<' :: rest =>
    !(rest.takeWhile isWordChar).isEmpty && rest.dropWhile isWordChar == ['>']
  | _ => false

/-- The call `std::regex_match(ptype, match, type_regex)` for the pattern
`^(\w+) ?(?:<(\w+)>)?$`: the first capture when the whole text matches.
The first group is the longest run of word characters, since what follows it
starts with a space, with `<`, or is the end. -/
def type_regex_match (ptype : String) : Option String :=
  let cs := ptype.toList
  let word := cs.takeWhile isWordChar
  let rest := cs.dropWhile isWordChar
  if word.isEmpty then none
  else
    let afterSpace := match rest with
      | ' ' :: r => r
      | r => r
    if afterSpace.isEmpty || matchesTypeParameter afterSpace then some (String.mk word)
    else none

/-- An externally bound global resource. -/
structure Binding where
  binding : Int
  group : Int
  name : String
  bindingType : String
  type : String
  deriving DecidableEq, Repr

/-- Attribute branch of the loop of `Binding::Binding`. -/
def bindingAttribute (T : IndexType) (st : Binding) (child : Node) : Except Err Binding :=
  match child.namedChild 0 with
  | .error e => .error e
  | .ok first =>
    let identifier := first.str
    if identifier = "binding" then
      match child.namedChild 1 with
      | .error e => .error e
      | .ok vnode =>
        if vnode.type ≠ "int_literal" then
          .error (.domain_error (identifier ++ " value of type" ++ vnode.type ++ " unsupported"))
        else .ok { st with binding := from_chars T vnode.str st.binding }
    else if identifier = "group" then
      match child.namedChild 1 with
      | .error e => .error e
      | .ok vnode =>
        if vnode.type ≠ "int_literal" then
          .error (.domain_error (identifier ++ " value of type" ++ vnode.type ++ " unsupported"))
        else .ok { st with group := from_chars T vnode.str st.group }
    else .ok st

/-- Qualifier part of the variable-declaration branch: the address space. The
access mode that may follow is read and has no effect. -/
def bindingQualifier (st : Binding) (child : Node) : Except Err Binding :=
  match child.firstChildOfType "variable_qualifier" with
  | none => .ok st
  | some qual =>
    match qual.namedChild 0 with
    | .error e => .error e
    | .ok address_space =>
      if address_space.type = "address_space" then
        if address_space.str = "uniform" ∨ address_space.str = "storage" then
          .ok { st with bindingType := "buffer" }
        else .error (.domain_error ("Unknown address_space: " ++ address_space.str))
      else .ok st

/-- Identifier-declaration part of the variable-declaration branch: the name,
and the type read from the text when no binding type is set yet, from the
first named child of the type node otherwise. -/
def bindingIdentifier (st : Binding) (child : Node) : Except Err Binding :=
  match child.firstChildOfType "variable_identifier_declaration" with
  | none => .ok st
  | some idecl =>
    match idecl.child "name" with
    | .error e => .error e
    | .ok n =>
      match idecl.child "type" with
      | .error e => .error e
      | .ok tdecl =>
        if st.bindingType = "" then
          if tdecl.namedChildCount ≠ 0 then
            .error (.assertion "Type decl for builtin type expected")
          else
            match type_regex_match tdecl.str with
            | none => .error (.domain_error ("Unable to parse type decl: " ++ tdecl.str))
            | some m1 => .ok { st with name := n.str, bindingType := m1, type := m1 }
        else
          match tdecl.namedChild 0 with
          | .error e => .error e
          | .ok identifier => .ok { st with name := n.str, type := identifier.str }

/-- One turn of the loop of `Binding::Binding`. -/
def bindingStep (T : IndexType) (st : Binding) (child : Node) : Except Err Binding :=
  if child.type = "attribute" then bindingAttribute T st child
  else if child.type = "variable_declaration" then
    match bindingQualifier st child with
    | .error e => .error e
    | .ok st1 => bindingIdentifier st1 child
  else .ok st

/-- Loop of `Binding::Binding` over the named children. -/
def bindingLoop (T : IndexType) : List Node → Binding → Except Err Binding
  | [], st => .ok st
  | child :: rest, st =>
    match bindingStep T st child with
    | .error e => .error e
    | .ok st1 => bindingLoop T rest st1

/-- The five closing `assert`s of `Binding::Binding`, in their order. -/
def bindingAsserts (T : IndexType) (st : Binding) : Except Err Binding :=
  if st.binding = T.UNSET then .error (.assertion "Binding was not found")
  else if st.group = T.UNSET then .error (.assertion "Group was not found")
  else if st.name = "" then .error (.assertion "Name was not found")
  else if st.bindingType = "" then .error (.assertion "bindingType was not found")
  else if st.type = "" then .error (.assertion "Type was not found")
  else .ok st

/-- Constructor `Binding::Binding(cppts::Node)`; the fields start as
`UNSET` and as the empty string. -/
def Binding.ctor (T : IndexType) (node : Node) : Except Err Binding :=
  if node.type ≠ "global_variable_declaration" then
    .error (.invalid_argument "Given node is not a global struct declaration")
  else
    match bindingLoop T node.namedChildren (Binding.mk T.UNSET T.UNSET "" "" "") with
    | .error e => .error e
    | .ok st => bindingAsserts T st

/-! ## Reflect -/

/-- Modelled from the spec: the pattern query of the syntax tree provider
(`Tree::query` and the match cursor), for a pattern that names one node kind:
the nodes of that kind, in tree order. -/
def query (tree : Node) (kind : String) : List Node :=
  tree.preorder.filter (fun n => n.type == kind)

/-- The three entry-point lists `m_entries`. -/
structure Entries where
  vertex : List Function
  fragment : List Function
  compute : List Function

/-- The members of `Reflect` that the passes fill. -/
structure Reflect where
  m_structures : StdMap Structure
  m_functions : StdMap Function
  m_entries : Entries

/-- Loop of `Reflect::parseStructures` over the matches. -/
def parseStructuresLoop : List Node → StdMap Structure → Except Err (StdMap Structure)
  | [], m => .ok m
  | node :: rest, m =>
    match Structure.ctor node with
    | .error e => .error e
    | .ok _struct => parseStructuresLoop rest (m.emplace _struct.name _struct)

/-- Pass `Reflect::parseStructures`. -/
def parseStructures (tree : Node) (r : Reflect) : Except Err Reflect :=
  match parseStructuresLoop (query tree "struct_declaration") r.m_structures with
  | .error e => .error e
  | .ok m => .ok { r with m_structures := m }

/-- Loop of `Reflect::parseFunctions` over the matches; `getStruct` is the
lookup in `m_structures`. -/
def parseFunctionsLoop (getStruct : String → Option Structure) :
    List Node → StdMap Function → Except Err (StdMap Function)
  | [], m => .ok m
  | node :: rest, m =>
    match Function.ctor node (some getStruct) with
    | .error e => .error e
    | .ok function => parseFunctionsLoop getStruct rest (m.emplace function.name function)

/-- Pass `Reflect::parseFunctions`. -/
def parseFunctions (tree : Node) (r : Reflect) : Except Err Reflect :=
  match parseFunctionsLoop r.m_structures.find (query tree "function_declaration")
      r.m_functions with
  | .error e => .error e
  | .ok m => .ok { r with m_functions := m }

/-- Inner loop of `Reflect::parseEntrypoints` over the named children of one
function declaration. -/
def entrypointChildren (m_functions : StdMap Function) (name : String) :
    List Node → Entries → Except Err Entries
  | [], entries => .ok entries
  | child :: rest, entries =>
    if child.type ≠ "attribute" then entrypointChildren m_functions name rest entries
    else
      match m_functions.find name with
      | none => .error (.runtime_error ("Function with name " ++ name ++ " not found"))
      | some f =>
        match child.namedChild 0 with
        | .error e => .error e
        | .ok first =>
          let type := first.str
          if type = "vertex" then
            entrypointChildren m_functions name rest { entries with vertex := entries.vertex ++ [f] }
          else if type = "fragment" then
            entrypointChildren m_functions name rest
              { entries with fragment := entries.fragment ++ [f] }
          else if type = "compute" then
            entrypointChildren m_functions name rest
              { entries with compute := entries.compute ++ [f] }
          else entrypointChildren m_functions name rest entries

/-- Outer loop of `Reflect::parseEntrypoints` over the matches. -/
def parseEntrypointsLoop (m_functions : StdMap Function) :
    List Node → Entries → Except Err Entries
  | [], entries => .ok entries
  | func :: rest, entries =>
    match func.child "name" with
    | .error e => .error e
    | .ok n =>
      match entrypointChildren m_functions n.str func.namedChildren entries with
      | .error e => .error e
      | .ok entries1 => parseEntrypointsLoop m_functions rest entries1

/-- Pass `Reflect::parseEntrypoints`. -/
def parseEntrypoints (tree : Node) (r : Reflect) : Except Err Reflect :=
  match parseEntrypointsLoop r.m_functions (query tree "function_declaration") r.m_entries with
  | .error e => .error e
  | .ok entries => .ok { r with m_entries := entries }

/-- Constructor body `Reflect::initialize`, from the parsed tree: the three
passes in their order, on members that start empty. -/
def Reflect.initialise (tree : Node) : Except Err Reflect :=
  match parseStructures tree (Reflect.mk StdMap.empty StdMap.empty (Entries.mk [] [] [])) with
  | .error e => .error e
  | .ok r1 =>
    match parseFunctions tree r1 with
    | .error e => .error e
    | .ok r2 => parseEntrypoints tree r2

end wgsl_reflect

/-! ## Specification-side definitions -/

namespace wgsl_reflect

open cppts

/-- The parameters of a function declaration: the named children of its
named children of kind `parameter_list`, in tree order. -/
def parametersOf (node : Node) : List Node :=
  (node.namedChildren.filter (fun c => c.type == "parameter_list")).flatMap Node.namedChildren

/-- What one parameter contributes to the inputs: the members of the
structure its parsed type names in the structure map, the parsed input itself
when the map has no such key. -/
def flattenedParameter (m : StdMap Structure) (param : Node) : List Input :=
  match parseInput param with
  | .error _ => []
  | .ok input =>
    match m.find input.type with
    | some T => T.members
    | none => [input]

/-- The named children of kind `struct_member` of a struct declaration. -/
def structMembersOf (node : Node) : List Node :=
  node.namedChildren.filter (fun c => c.type == "struct_member")

/-- Whether a named child of a function declaration is an attribute whose
first named sub-item reads the given stage keyword. -/
def readsStage (stage : String) (c : Node) : Bool :=
  c.type == "attribute" &&
    (match c.namedChild 0 with
     | .ok first => first.str == stage
     | .error _ => false)

/-- Number of attributes of a function declaration that read the given stage
keyword. -/
def stageAttributeCount (stage : String) (func : Node) : Nat :=
  (func.namedChildren.filter (readsStage stage)).length

/-- The text of the `name` field of a declaration, when it has the field. -/
def declaredName (decl : Node) : Option String :=
  match decl.child "name" with
  | .ok n => some n.str
  | .error _ => none

/-- What a function declaration adds to the list of a stage: the function the
map holds under the declared name, once per attribute that reads the stage. -/
def stageEntries (m : StdMap Function) (stage : String) (func : Node) : List Function :=
  match declaredName func with
  | none => []
  | some name =>
    match m.find name with
    | none => []
    | some f => List.replicate (stageAttributeCount stage func) f

/-- The error the spec calls `UnsupportedLiteralType`: the `std::domain_error`
thrown for a `binding` or `group` value that is no integer literal. -/
def UnsupportedLiteralType (identifier kind : String) : Err :=
  .domain_error (identifier ++ " value of type" ++ kind ++ " unsupported")

/-- An attribute child that `Binding::Binding` reads without failure: it has
a first named sub-item, and when that reads `binding` or `group` it has a
second one of kind `int_literal`. -/
def wellFormedIndexAttribute (c : Node) : Bool :=
  match c.namedChild 0 with
  | .error _ => false
  | .ok first =>
    if first.str = "binding" ∨ first.str = "group" then
      match c.namedChild 1 with
      | .ok vnode => vnode.type == "int_literal"
      | .error _ => false
    else true

/-- The text of the value of an attribute child named `key`. -/
def indexLiteral (key : String) (c : Node) : Option String :=
  if c.type = "attribute" then
    match c.namedChild 0 with
    | .error _ => none
    | .ok first =>
      if first.str = key then
        match c.namedChild 1 with
        | .ok vnode => some vnode.str
        | .error _ => none
      else none
  else none

/-- The index that the attributes named `key` among the given children
denote: their literal texts decoded by `from_chars` one after the other, from
the value held at the start. -/
def decodeIndex (T : IndexType) (key : String) (cs : List Node) (start : Int) : Int :=
  (cs.filterMap (indexLiteral key)).foldl (fun value text => from_chars T text value) start

/-- The children around the variable declaration of a global: none of them
is a variable declaration and the attributes among them are well formed. -/
def attributesOnly (cs : List Node) : Prop :=
  ∀ c ∈ cs, c.type ≠ "variable_declaration" ∧
    (c.type = "attribute" → wellFormedIndexAttribute c = true)

/-- An identifier as the type pattern reads it: one or more word
characters. -/
def isIdentifierText (w : List Char) : Prop :=
  w ≠ [] ∧ ∀ c ∈ w, isWordChar c = true

/-- The optional bracketed parameter of a type text: nothing, or `<`, an
identifier, `>`. -/
def isOptionalParameter (param : List Char) : Prop :=
  param = [] ∨ ∃ p, isIdentifierText p ∧ param = '<' :: (p ++ ['>'])

/-- The failure the spec calls `MalformedBinding`: one of the five closing
assertions of `Binding::Binding`. -/
def MalformedBinding (e : Err) : Prop :=
  e = .assertion "Binding was not found" ∨ e = .assertion "Group was not found" ∨
    e = .assertion "Name was not found" ∨ e = .assertion "bindingType was not found" ∨
    e = .assertion "Type was not found"

/-- The failure the spec calls `MissingRequiredChild`: the assertion of
`parseInput` that an input has a name. -/
def MissingRequiredChild : Err :=
  .assertion "Did not find input name"

/-- The named children of kind `variable_identifier_declaration`. -/
def identifierDeclarationsOf (node : Node) : List Node :=
  node.namedChildren.filter (fun c => c.type == "variable_identifier_declaration")

/-- The named children of kind `attribute`. -/
def attributeChildrenOf (node : Node) : List Node :=
  node.namedChildren.filter (fun c => c.type == "attribute")

/-- The text of the child held under a field name, empty when there is
none. -/
def fieldText (c : Node) (fieldName : String) : String :=
  match c.child fieldName with
  | .ok n => n.str
  | .error _ => ""

/-- The input attribute an attribute child stands for: the texts of its
first and second named sub-items, when it has both. -/
def inputAttributeOf (c : Node) : Option InputAttribute :=
  match c.namedChildren with
  | a :: v :: _ => some (InputAttribute.mk a.str v.str)
  | _ => none

/-- A named child that `parseInput` reads without failure: an identifier
declaration has the fields `name` and `type`, an attribute has a first and a
second named sub-item. -/
def wellFormedInputChild (c : Node) : Prop :=
  (c.type = "variable_identifier_declaration" →
      ∃ n t, c.child "name" = .ok n ∧ c.child "type" = .ok t) ∧
    (c.type = "attribute" → ∃ a v, c.namedChild 0 = .ok a ∧ c.namedChild 1 = .ok v)

/-- The entry an attribute child of a function declaration offers to the
attribute map: the text of its first named sub-item and the value the code
reconstructs from the siblings that follow it. -/
def attributeEntry (c : Node) : Option (String × String) :=
  if c.type = "attribute" then
    match c.namedChild 0 with
    | .ok first => some (first.str, attributeValueLoop c.siblingsAfterFirstNamed "")
    | .error _ => none
  else none

/-- The entries the attribute children of a function declaration offer, in
tree order. -/
def attributeEntriesOf (node : Node) : List (String × String) :=
  node.namedChildren.filterMap attributeEntry

/-- Whether a sibling is kept in an attribute value: its text is neither `(`
nor `)`. -/
def keptInValue (s : Node) : Bool :=
  !(s.str == "(" || s.str == ")")

/-- The error the spec calls `UnparsableTypeDeclaration`: the
`std::domain_error` thrown when the type text does not match the pattern. -/
def UnparsableTypeDeclaration (text : String) : Err :=
  .domain_error ("Unable to parse type decl: " ++ text)

/-- The form of a type text worded as: an identifier, optionally followed by
one identifier in angle brackets. -/
def hasBareTypeForm (cs : List Char) : Prop :=
  ∃ w param, cs = w ++ param ∧ isIdentifierText w ∧ isOptionalParameter param

/-- The form of a type text that the pattern of the code accepts: an
identifier, at most one space, and the optional bracketed parameter. -/
def hasTypeForm (cs : List Char) : Prop :=
  ∃ w sp param, cs = w ++ (sp ++ param) ∧ isIdentifierText w ∧ (sp = [] ∨ sp = [' ']) ∧
    isOptionalParameter param

end wgsl_reflect

/-! ## Sample trees -/

namespace Sample

open cppts wgsl_reflect

/-- An anonymous token. -/
def tok (text : String) : Node := Node.mk text false text none []

/-- An identifier held under a field name. -/
def identifierAt (fieldName text : String) : Node :=
  Node.mk "identifier" true text (some fieldName) []

/-- A type declaration that is one builtin keyword, or a builtin with its
bracketed parameter: no named child. -/
def builtinType (text : String) : Node :=
  Node.mk "type_declaration" true text (some "type") [tok text]

/-- A type declaration that names a user type: one named identifier child. -/
def namedType (text : String) : Node :=
  Node.mk "type_declaration" true text (some "type") [Node.mk "identifier" true text none []]

/-- The declaration `name: type`. -/
def identDecl (name : String) (type : Node) : Node :=
  Node.mk "variable_identifier_declaration" true (name ++ ": " ++ type.str) none
    [identifierAt "name" name, tok ":", type]

/-- A struct member or a parameter without attributes. -/
def member (kind name : String) (type : Node) : Node :=
  Node.mk kind true (name ++ ": " ++ type.str) none [identDecl name type]

/-- The declaration `struct T { a: f32, b: i32 }`. -/
def structT : Node :=
  Node.mk "struct_declaration" true "struct T \x7b a: f32, b: i32 \x7d" none
    [tok "struct", identifierAt "name" "T", tok "\x7b",
     member "struct_member" "a" (builtinType "f32"), tok ",",
     member "struct_member" "b" (builtinType "i32"), tok "\x7d"]

/-- The declaration `fn main(p: T, c: u32) {}`. -/
def fnMain : Node :=
  Node.mk "function_declaration" true "fn main(p: T, c: u32) \x7b\x7d" none
    [tok "fn", identifierAt "name" "main", tok "(",
     Node.mk "parameter_list" true "p: T, c: u32" none
       [member "parameter" "p" (namedType "T"), tok ",",
        member "parameter" "c" (builtinType "u32")],
     tok ")", Node.mk "compound_statement" true "\x7b\x7d" (some "body") [tok "\x7b", tok "\x7d"]]

/-- The structure map that holds `T` with its members `a` and `b`. -/
def mapT : StdMap Structure :=
  StdMap.emplace StdMap.empty "T" (Structure.mk "T" [Input.mk "a" "f32" [], Input.mk "b" "i32" []])

/-- A struct declaration with one member. -/
def structDecl (name memberName : String) (type : Node) : Node :=
  Node.mk "struct_declaration" true
    ("struct " ++ name ++ " \x7b " ++ memberName ++ ": " ++ type.str ++ " \x7d") none
    [tok "struct", identifierAt "name" name, tok "\x7b", member "struct_member" memberName type,
     tok "\x7d"]

/-- An attribute without arguments, such as `@vertex`. -/
def attr (name : String) : Node :=
  Node.mk "attribute" true ("@" ++ name) none [tok "@", Node.mk "identifier" true name none []]

/-- A function declaration with attributes and one parameter. -/
def fnDecl (attributes : List Node) (name paramName : String) (type : Node) : Node :=
  Node.mk "function_declaration" true
    ("fn " ++ name ++ "(" ++ paramName ++ ": " ++ type.str ++ ") \x7b\x7d") none
    (attributes ++
      [tok "fn", identifierAt "name" name, tok "(",
       Node.mk "parameter_list" true (paramName ++ ": " ++ type.str) none
         [member "parameter" paramName type],
       tok ")", Node.mk "compound_statement" true "\x7b\x7d" (some "body") [tok "\x7b", tok "\x7d"]])

/-- A translation unit with the given declarations. -/
def unit (declarations : List Node) : Node :=
  Node.mk "translation_unit" true "" none declarations

/-- The source `struct A { x: f32 } struct A { y: i32 } fn f(a: f32) {}
fn f(b: i32) {}`: the names `A` and `f` are each declared twice. -/
def duplicates : Node :=
  unit [structDecl "A" "x" (builtinType "f32"), structDecl "A" "y" (builtinType "i32"),
        fnDecl [] "f" "a" (builtinType "f32"), fnDecl [] "f" "b" (builtinType "i32")]

/-- The members of `Reflect` before the passes run. -/
def reflect0 : Reflect := Reflect.mk StdMap.empty StdMap.empty (Entries.mk [] [] [])

/-- The function record of a sample declaration with attributes without
arguments and one builtin-typed parameter. -/
def fnRecord (attributes : List String) (name paramName type : String) : Function :=
  Function.mk name (attributes.foldl (fun m a => StdMap.emplace m a "") StdMap.empty)
    [Input.mk paramName type []]

/-- The source `@vertex @vertex fn main(p: f32) {}`: the stage attribute is
repeated on one declaration. -/
def repeated : Node :=
  unit [fnDecl [attr "vertex", attr "vertex"] "main" "p" (builtinType "f32")]

/-- The source `@vertex @compute fn a(p: f32) {} @fragment @other fn b(q: f32) {}
@vertex fn c(s: f32) {}`. -/
def stages : Node :=
  unit [fnDecl [attr "vertex", attr "compute"] "a" "p" (builtinType "f32"),
        fnDecl [attr "fragment", attr "other"] "b" "q" (builtinType "f32"),
        fnDecl [attr "vertex"] "c" "s" (builtinType "f32")]

/-- The function map of the source `stages`. -/
def stagesFunctions : StdMap Function :=
  StdMap.emplace
    (StdMap.emplace
      (StdMap.emplace StdMap.empty "a" (fnRecord ["vertex", "compute"] "a" "p" "f32"))
      "b" (fnRecord ["fragment", "other"] "b" "q" "f32"))
    "c" (fnRecord ["vertex"] "c" "s" "f32")

/-- An index type for the samples: unsigned 32-bit, the greatest value as
the sentinel. -/
def u32 : IndexType := IndexType.mk 0 4294967295 4294967295

/-- An attribute with one argument, such as `@group(2)`; the argument is a
node of the given kind. -/
def attrArg (name kind text : String) : Node :=
  Node.mk "attribute" true ("@" ++ name ++ "(" ++ text ++ ")") none
    [tok "@", Node.mk "identifier" true name none [], tok "(", Node.mk kind true text none [],
     tok ")"]

/-- The qualifier `<space>` of a variable declaration. -/
def qualifier (space : String) : Node :=
  Node.mk "variable_qualifier" true ("<" ++ space ++ ">") none
    [tok "<", Node.mk "address_space" true space none [tok space], tok ">"]

/-- The variable declaration `var<space> name: type`. -/
def varQualified (space name : String) (type : Node) : Node :=
  Node.mk "variable_declaration" true ("var<" ++ space ++ "> " ++ name ++ ": " ++ type.str) none
    [tok "var", qualifier space, identDecl name type]

/-- The variable declaration `var name: type`, without qualifier. -/
def varPlain (name : String) (type : Node) : Node :=
  Node.mk "variable_declaration" true ("var " ++ name ++ ": " ++ type.str) none
    [tok "var", identDecl name type]

/-- A global variable declaration: attributes, the variable declaration and
the closing semicolon. -/
def globalVar (attributes : List Node) (decl : Node) : Node :=
  Node.mk "global_variable_declaration" true "" none (attributes ++ [decl, tok ";"])

/-- The declaration `@group(2) @binding(5) var<uniform> u: MyUniform;`. -/
def uniformU : Node :=
  globalVar [attrArg "group" "int_literal" "2", attrArg "binding" "int_literal" "5"]
    (varQualified "uniform" "u" (namedType "MyUniform"))

/-- The declaration `@group(0) @binding("x") var<storage> b: Foo;`; the
value of `binding` is a node that is no integer literal, whatever kind the
grammar gives it. -/
def stringBinding : Node :=
  globalVar [attrArg "group" "int_literal" "0", attrArg "binding" "ERROR" "\"x\""]
    (varQualified "storage" "b" (namedType "Foo"))

/-- The source `@group(0) @binding("x") var<storage> b: Foo;` alone. -/
def onlyStringBinding : Node :=
  unit [stringBinding]

/-- The source `struct T ...  fn main(p: T, c: u32)`. -/
def structAndFunction : Node :=
  unit [structT, fnMain]

/-- The same source with the declaration `@group(0) @binding("x")
var<storage> b: Foo;` between the two. -/
def structBindingFunction : Node :=
  unit [structT, stringBinding, fnMain]

/-- The declaration `@binding(0) var<uniform> u: MyUniform;`, which has no
`group` attribute. -/
def noGroup : Node :=
  globalVar [attrArg "binding" "int_literal" "0"]
    (varQualified "uniform" "u" (namedType "MyUniform"))

/-- A struct member or a parameter with attributes before its identifier
declaration. -/
def memberWith (attributes : List Node) (kind name : String) (type : Node) : Node :=
  Node.mk kind true "" none (attributes ++ [identDecl name type])

/-- The struct member `@invariant @builtin(position) pos: vec4<f32>`; the
attribute `@invariant` has no argument. -/
def invariantFirst : Node :=
  memberWith [attr "invariant", attrArg "builtin" "identifier" "position"] "struct_member" "pos"
    (builtinType "vec4<f32>")

/-- The struct member `@builtin(position) @invariant pos: vec4<f32>`. -/
def invariantLast : Node :=
  memberWith [attrArg "builtin" "identifier" "position", attr "invariant"] "struct_member" "pos"
    (builtinType "vec4<f32>")

/-- The parameter `@location(0) uv: vec2<f32>`. -/
def locationUv : Node :=
  memberWith [attrArg "location" "int_literal" "0"] "parameter" "uv" (builtinType "vec2<f32>")

/-- An attribute with two integer arguments, such as `@workgroup_size(8, 8)`. -/
def attrArgs2 (name a b : String) : Node :=
  Node.mk "attribute" true ("@" ++ name ++ "(" ++ a ++ ", " ++ b ++ ")") none
    [tok "@", Node.mk "identifier" true name none [], tok "(",
     Node.mk "int_literal" true a none [], tok ",", Node.mk "int_literal" true b none [],
     tok ")"]

/-- The declaration `@workgroup_size(1) @workgroup_size(2) fn f(p: f32) {}`:
the attribute is given twice with different values. -/
def sizeTwice : Node :=
  fnDecl [attrArg "workgroup_size" "int_literal" "1", attrArg "workgroup_size" "int_literal" "2"]
    "f" "p" (builtinType "f32")

/-- The declaration `@compute @workgroup_size(8, 8) fn cs(p: f32) {}`. -/
def computeCs : Node :=
  fnDecl [attr "compute", attrArgs2 "workgroup_size" "8" "8"] "cs" "p" (builtinType "f32")

/-- The declaration `@group(0) @binding(0) var t: texture_2d <f32>;`, with
one space before the bracket. -/
def textureSpace : Node :=
  globalVar [attrArg "group" "int_literal" "0", attrArg "binding" "int_literal" "0"]
    (varPlain "t" (builtinType "texture_2d <f32>"))

/-- The declaration `@group(0) @binding(0) var t: texture_2d  <f32>;`, with
two spaces before the bracket. -/
def textureTwoSpaces : Node :=
  globalVar [attrArg "group" "int_literal" "0", attrArg "binding" "int_literal" "0"]
    (varPlain "t" (builtinType "texture_2d  <f32>"))

/-- The declaration `@group(0) @binding(0) var t: texture_2d<vec4<f32>>;`
with a type node without named child. -/
def textureNestedFlat : Node :=
  globalVar [attrArg "group" "int_literal" "0", attrArg "binding" "int_literal" "0"]
    (varPlain "t" (builtinType "texture_2d<vec4<f32>>"))

/-- The declaration `@group(0) @binding(0) var t: texture_2d<vec4<f32>>;`
with a type node that holds the inner type as a named child. -/
def textureNestedTree : Node :=
  globalVar [attrArg "group" "int_literal" "0", attrArg "binding" "int_literal" "0"]
    (varPlain "t"
      (Node.mk "type_declaration" true "texture_2d<vec4<f32>>" (some "type")
        [tok "texture_2d", tok "<",
         Node.mk "type_declaration" true "vec4<f32>" none [tok "vec4<f32>"], tok ">"]))

/-- The source `@vertex fn f(a: f32) {} @fragment fn f(b: i32) {}`: the name
`f` is declared twice, with different stage attributes. -/
def twoStages : Node :=
  unit [fnDecl [attr "vertex"] "f" "a" (builtinType "f32"),
        fnDecl [attr "fragment"] "f" "b" (builtinType "i32")]

/-- The reflection model of the source `stages`. -/
def stagesModel : Reflect :=
  Reflect.mk StdMap.empty stagesFunctions
    (Entries.mk
      [fnRecord ["vertex", "compute"] "a" "p" "f32", fnRecord ["vertex"] "c" "s" "f32"]
      [fnRecord ["fragment", "other"] "b" "q" "f32"]
      [fnRecord ["vertex", "compute"] "a" "p" "f32"])

/-- The declaration `@group(0x10) @binding(5) var<uniform> u: MyUniform;`:
the group is the hexadecimal integer literal for sixteen. -/
def hexGroup : Node :=
  globalVar [attrArg "group" "int_literal" "0x10", attrArg "binding" "int_literal" "5"]
    (varQualified "uniform" "u" (namedType "MyUniform"))

/-- The declaration `@group(99999999999999999999999999999999999999999)
@binding(5) var<uniform> u: MyUniform;`: the group literal has forty-one
digits. -/
def overflowGroup : Node :=
  globalVar
    [attrArg "group" "int_literal" "99999999999999999999999999999999999999999",
     attrArg "binding" "int_literal" "5"]
    (varQualified "uniform" "u" (namedType "MyUniform"))

/-- The declaration `@group(2) @binding(5) var<uniform> x: f32;`: the type
node of the builtin `f32` has no named child. -/
def uniformF32 : Node :=
  globalVar [attrArg "group" "int_literal" "2", attrArg "binding" "int_literal" "5"]
    (varQualified "uniform" "x" (builtinType "f32"))

/-- The declaration `@group(0) @binding(1) @binding(2) var<uniform> u:
MyUniform;`: the attribute `binding` is given twice. -/
def bindingTwice : Node :=
  globalVar
    [attrArg "group" "int_literal" "0", attrArg "binding" "int_literal" "1",
     attrArg "binding" "int_literal" "2"]
    (varQualified "uniform" "u" (namedType "MyUniform"))

/-- The declaration `@group(0) @binding(3) @binding(4294967296) var<uniform>
u: MyUniform;`: the second `binding` literal is past 32 bits. -/
def bindingOverflow : Node :=
  globalVar
    [attrArg "group" "int_literal" "0", attrArg "binding" "int_literal" "3",
     attrArg "binding" "int_literal" "4294967296"]
    (varQualified "uniform" "u" (namedType "MyUniform"))

end Sample

/-! # Theorems -/

namespace wgsl_reflect

open cppts

/-! ## Function-parameter flattening -/

theorem parameterLoop_ok (m : StdMap Structure) :
    ∀ (ps : List Node) (acc r : List Input),
      parameterLoop (some m.find) ps acc = .ok r →
      r = acc ++ ps.flatMap (flattenedParameter m) ∧
        ∀ p ∈ ps, ∃ input, parseInput p = .ok input := by
  intro ps
  induction ps with
  | nil =>
    intro acc r h
    simp only [parameterLoop, Except.ok.injEq] at h
    simp [h]
  | cons p rest ih =>
    intro acc r h
    unfold parameterLoop at h
    cases hp : parseInput p with
    | error e => simp [hp] at h
    | ok input =>
      simp only [hp] at h
      cases hl : m.find input.type with
      | none =>
        simp only [hl] at h
        obtain ⟨h1, h2⟩ := ih _ _ h
        refine ⟨?_, ?_⟩
        · simp [h1, List.flatMap_cons, flattenedParameter, hp, hl]
        · intro q hq
          rcases List.mem_cons.mp hq with rfl | hq
          · exact ⟨input, hp⟩
          · exact h2 q hq
      | some T =>
        simp only [hl, List.dropLast_concat] at h
        obtain ⟨h1, h2⟩ := ih _ _ h
        refine ⟨?_, ?_⟩
        · simp [h1, List.flatMap_cons, flattenedParameter, hp, hl]
        · intro q hq
          rcases List.mem_cons.mp hq with rfl | hq
          · exact ⟨input, hp⟩
          · exact h2 q hq

theorem functionLoop_inputs (m : StdMap Structure) :
    ∀ (cs : List Node) (attrs attrs1 : StdMap String) (acc r : List Input),
      functionLoop (some m.find) cs attrs acc = .ok (attrs1, r) →
      r = acc ++ ((cs.filter (fun c => c.type == "parameter_list")).flatMap
            Node.namedChildren).flatMap (flattenedParameter m) ∧
        ∀ p ∈ (cs.filter (fun c => c.type == "parameter_list")).flatMap Node.namedChildren,
          ∃ input, parseInput p = .ok input := by
  intro cs
  induction cs with
  | nil =>
    intro attrs attrs1 acc r h
    simp only [functionLoop, Except.ok.injEq, Prod.mk.injEq] at h
    simp [h.2]
  | cons c rest ih =>
    intro attrs attrs1 acc r h
    unfold functionLoop at h
    by_cases ha : c.type = "attribute"
    · have hne : ¬ c.type = "parameter_list" := by rw [ha]; decide
      simp only [ha, if_true] at h
      cases hf : c.namedChild 0 with
      | error e => simp [hf] at h
      | ok first =>
        simp only [hf] at h
        have := ih _ _ _ _ h
        simpa [List.filter_cons, ha] using this
    · simp only [ha, if_false] at h
      by_cases hp : c.type = "parameter_list"
      · simp only [hp, if_true] at h
        cases hl : parameterLoop (some m.find) c.namedChildren acc with
        | error e => simp [hl] at h
        | ok inputs2 =>
          simp only [hl] at h
          obtain ⟨h1, h2⟩ := parameterLoop_ok m _ _ _ hl
          obtain ⟨h3, h4⟩ := ih _ _ _ _ h
          refine ⟨?_, ?_⟩
          · simp [List.filter_cons, hp, h3, h1, List.flatMap_append]
          · intro q hq
            simp only [List.filter_cons, hp, beq_self_eq_true, if_true, List.flatMap_cons,
              List.mem_append] at hq
            rcases hq with hq | hq
            · exact h2 q hq
            · exact h4 q hq
      · simp only [hp, if_false] at h
        have := ih _ _ _ _ h
        simpa [List.filter_cons, hp] using this

/-- C1. Function-parameter flattening: when `Function::Function` builds a
Function from a node with the lookup of a structure map, the inputs are the
concatenation, over the parameters in tree order, of the members of the
structure the parsed parameter type names in the map, or else of the single
parsed input; every parameter parses. -/
theorem function_inputs_flattened (node : Node) (m : StdMap Structure) (f : Function)
    (h : Function.ctor node (some m.find) = .ok f) :
    f.inputs = (parametersOf node).flatMap (flattenedParameter m) ∧
      ∀ p ∈ parametersOf node, ∃ input, parseInput p = .ok input := by
  unfold Function.ctor at h
  by_cases hk : node.type = "function_declaration"
  · simp only [hk, ne_eq, not_true_eq_false, if_false] at h
    cases hn : node.child "name" with
    | error e => simp [hn] at h
    | ok n =>
      simp only [hn] at h
      cases hl : functionLoop (some m.find) node.namedChildren StdMap.empty [] with
      | error e => simp [hl] at h
      | ok pr =>
        obtain ⟨attrs1, r⟩ := pr
        simp only [hl, Except.ok.injEq] at h
        obtain ⟨h1, h2⟩ := functionLoop_inputs m _ _ _ _ _ hl
        subst h
        exact ⟨by simpa [parametersOf] using h1, h2⟩
  · simp [hk] at h

/-- Witness of C1: `fn main(p: T, c: u32)` with `T` holding `a` and `b` has
the inputs `a`, `b`, `c`. -/
theorem function_inputs_flattened_witness :
    (Function.mk "main" StdMap.empty
        [Input.mk "a" "f32" [], Input.mk "b" "i32" [], Input.mk "c" "u32" []]).inputs =
      (parametersOf Sample.fnMain).flatMap (flattenedParameter Sample.mapT) ∧
      ∀ p ∈ parametersOf Sample.fnMain, ∃ input, parseInput p = .ok input :=
  function_inputs_flattened Sample.fnMain Sample.mapT
    (Function.mk "main" StdMap.empty
      [Input.mk "a" "f32" [], Input.mk "b" "i32" [], Input.mk "c" "u32" []]) (by rfl)

/-! ## Structure members -/

theorem structureLoop_ok :
    ∀ (cs : List Node) (acc : List Input),
      (∀ c ∈ cs.filter (fun c => c.type == "struct_member"), ∃ input, parseInput c = .ok input) →
      ∃ ms, structureLoop cs acc = .ok (acc ++ ms) ∧
        (cs.filter (fun c => c.type == "struct_member")).map parseInput = ms.map Except.ok := by
  intro cs
  induction cs with
  | nil =>
    intro acc _
    exact ⟨[], by simp [structureLoop], by simp⟩
  | cons c rest ih =>
    intro acc hp
    unfold structureLoop
    by_cases hk : c.type = "struct_member"
    · simp only [List.filter_cons, hk, beq_self_eq_true, if_true, List.mem_cons,
        forall_eq_or_imp] at hp
      obtain ⟨⟨input, hi⟩, hrest⟩ := hp
      obtain ⟨ms, h1, h2⟩ := ih (acc ++ [input]) hrest
      refine ⟨input :: ms, ?_, ?_⟩
      · simp [hk, hi, h1]
      · simp [List.filter_cons, hk, hi, h2]
    · have hrest : ∀ c ∈ rest.filter (fun c => c.type == "struct_member"),
          ∃ input, parseInput c = .ok input := by
        intro d hd
        apply hp d
        simpa [List.filter_cons, hk] using hd
      obtain ⟨ms, h1, h2⟩ := ih acc hrest
      refine ⟨ms, ?_, ?_⟩
      · simp [hk, h1]
      · simpa [List.filter_cons, hk] using h2

/-- C2. A struct-declaration node whose `struct_member` named children all
parse yields a Structure with exactly as many members as it has such
children, the i-th member being the input parser's result for the i-th of
them; the named children of other kinds add nothing. -/
theorem structure_members_in_order (node n : Node)
    (hk : node.type = "struct_declaration") (hn : node.child "name" = .ok n)
    (hp : ∀ c ∈ structMembersOf node, ∃ input, parseInput c = .ok input) :
    ∃ s, Structure.ctor node = .ok s ∧ s.name = n.str ∧
      s.members.length = (structMembersOf node).length ∧
      (structMembersOf node).map parseInput = s.members.map Except.ok := by
  obtain ⟨ms, h1, h2⟩ := structureLoop_ok node.namedChildren [] hp
  refine ⟨Structure.mk n.str ms, ?_, rfl, ?_, h2⟩
  · simp [Structure.ctor, hk, hn, h1]
  · have := congrArg List.length h2
    simpa [structMembersOf] using this.symm

/-- Witness of C2: `struct T { a: f32, b: i32 }` has the two members `a` and
`b` in that order. -/
theorem structure_members_in_order_witness :
    ∃ s, Structure.ctor Sample.structT = .ok s ∧ s.name = (Sample.identifierAt "name" "T").str ∧
      s.members.length = (structMembersOf Sample.structT).length ∧
      (structMembersOf Sample.structT).map parseInput = s.members.map Except.ok :=
  structure_members_in_order Sample.structT (Sample.identifierAt "name" "T") (by rfl) (by rfl)
    (by
      intro c hc
      have hc2 : c = Sample.member "struct_member" "a" (Sample.builtinType "f32") ∨
          c = Sample.member "struct_member" "b" (Sample.builtinType "i32") := by
        simpa [structMembersOf, Sample.structT, Node.namedChildren, Node.children, Node.isNamed,
          Node.type, Sample.tok, Sample.identifierAt, Sample.member] using hc
      rcases hc2 with rfl | rfl
      · exact ⟨Input.mk "a" "f32" [], by rfl⟩
      · exact ⟨Input.mk "b" "i32" [], by rfl⟩)

/-! ## Duplicate names -/

theorem StdMap.find_append_singleton {β : Type} (k : String) (v : β) (key : String) :
    ∀ m : StdMap β, StdMap.find (List.append m [(k, v)]) key =
      (StdMap.find m key).or (if k = key then some v else none) := by
  intro m
  induction m with
  | nil => simp [StdMap.find]
  | cons p rest ih =>
    obtain ⟨k1, v1⟩ := p
    by_cases h : k1 = key
    · simp [StdMap.find, h]
    · have ih2 : StdMap.find (rest ++ [(k, v)]) key =
          (StdMap.find rest key).or (if k = key then some v else none) := ih
      simp [StdMap.find, h, ih2]

theorem StdMap.find_emplace {β : Type} (m : StdMap β) (k : String) (v : β) (key : String) :
    (m.emplace k v).find key = (m.find key).or (if k = key then some v else none) := by
  unfold StdMap.emplace
  cases h : m.find k with
  | none => exact StdMap.find_append_singleton k v key m
  | some x =>
    by_cases hk : k = key
    · subst hk
      simp [h]
    · simp [hk]

theorem StdMap.find_foldl_emplace {β : Type} (name : β → String) (key : String) :
    ∀ (vals : List β) (m0 : StdMap β),
      (vals.foldl (fun m v => m.emplace (name v) v) m0).find key =
        (m0.find key).or (vals.find? (fun v => name v == key)) := by
  intro vals
  induction vals with
  | nil => intro m0; simp
  | cons v rest ih =>
    intro m0
    rw [List.foldl_cons, ih, StdMap.find_emplace]
    by_cases h : name v = key
    · cases hm : m0.find key <;> simp [List.find?_cons, h]
    · cases hm : m0.find key <;> simp [List.find?_cons, h]

theorem parseStructuresLoop_ok :
    ∀ (decls : List Node) (m0 m : StdMap Structure),
      parseStructuresLoop decls m0 = .ok m →
      ∃ structs : List Structure, decls.map Structure.ctor = structs.map Except.ok ∧
        m = structs.foldl (fun m s => m.emplace s.name s) m0 := by
  intro decls
  induction decls with
  | nil =>
    intro m0 m h
    simp only [parseStructuresLoop, Except.ok.injEq] at h
    exact ⟨[], by simp, by simp [h]⟩
  | cons d rest ih =>
    intro m0 m h
    unfold parseStructuresLoop at h
    cases hd : Structure.ctor d with
    | error e => simp [hd] at h
    | ok s =>
      simp only [hd] at h
      obtain ⟨structs, h1, h2⟩ := ih _ _ h
      exact ⟨s :: structs, by simp [hd, h1], by simp [h2]⟩

theorem parseFunctionsLoop_ok (getStruct : String → Option Structure) :
    ∀ (decls : List Node) (m0 m : StdMap Function),
      parseFunctionsLoop getStruct decls m0 = .ok m →
      ∃ funcs : List Function,
        decls.map (fun d => Function.ctor d (some getStruct)) = funcs.map Except.ok ∧
        m = funcs.foldl (fun m f => m.emplace f.name f) m0 := by
  intro decls
  induction decls with
  | nil =>
    intro m0 m h
    simp only [parseFunctionsLoop, Except.ok.injEq] at h
    exact ⟨[], by simp, by simp [h]⟩
  | cons d rest ih =>
    intro m0 m h
    unfold parseFunctionsLoop at h
    cases hd : Function.ctor d (some getStruct) with
    | error e => simp [hd] at h
    | ok f =>
      simp only [hd] at h
      obtain ⟨funcs, h1, h2⟩ := ih _ _ h
      exact ⟨f :: funcs, by simp [hd, h1], by simp [h2]⟩

/-- C3, as the code has it. After `parseStructures` and then `parseFunctions`
on members that start empty, every declaration was built into a record, and
the structure map (resp. function map) holds under each name the record of
the FIRST declaration in tree order that has this name: `emplace` leaves an
existing entry as it is. -/
theorem duplicate_name_keeps_first (tree : Node) (r0 r1 r2 : Reflect)
    (hs : r0.m_structures = StdMap.empty) (hf : r0.m_functions = StdMap.empty)
    (h1 : parseStructures tree r0 = .ok r1) (h2 : parseFunctions tree r1 = .ok r2) :
    (∃ structs : List Structure,
        (query tree "struct_declaration").map Structure.ctor = structs.map Except.ok ∧
        ∀ name, r1.m_structures.find name = structs.find? (fun s => s.name == name)) ∧
      (∃ funcs : List Function, (query tree "function_declaration").map
            (fun d => Function.ctor d (some r1.m_structures.find)) = funcs.map Except.ok ∧
        ∀ name, r2.m_functions.find name = funcs.find? (fun f => f.name == name)) := by
  unfold parseStructures at h1
  cases hl1 : parseStructuresLoop (query tree "struct_declaration") r0.m_structures with
  | error e => simp [hl1] at h1
  | ok m1 =>
    simp only [hl1, Except.ok.injEq] at h1
    subst h1
    unfold parseFunctions at h2
    cases hl2 : parseFunctionsLoop m1.find (query tree "function_declaration") r0.m_functions with
    | error e => simp [hl2] at h2
    | ok m2 =>
      simp only [hl2, Except.ok.injEq] at h2
      subst h2
      obtain ⟨structs, a1, a2⟩ := parseStructuresLoop_ok _ _ _ hl1
      obtain ⟨funcs, b1, b2⟩ := parseFunctionsLoop_ok _ _ _ _ hl2
      refine ⟨⟨structs, a1, ?_⟩, ⟨funcs, b1, ?_⟩⟩
      · intro name
        simp only [a2, hs]
        rw [StdMap.find_foldl_emplace]
        simp [StdMap.empty, StdMap.find]
      · intro name
        simp only [b2, hf]
        rw [StdMap.find_foldl_emplace]
        simp [StdMap.empty, StdMap.find]

/-- Witness of C3 as amended: the source that declares `A` and `f` twice. -/
theorem duplicate_name_keeps_first_witness :
    (∃ structs : List Structure,
        (query Sample.duplicates "struct_declaration").map Structure.ctor =
          structs.map Except.ok ∧
        ∀ name, (StdMap.emplace StdMap.empty "A"
            (Structure.mk "A" [Input.mk "x" "f32" []])).find name =
          structs.find? (fun s => s.name == name)) ∧
      (∃ funcs : List Function, (query Sample.duplicates "function_declaration").map
            (fun d => Function.ctor d (some (StdMap.emplace StdMap.empty "A"
              (Structure.mk "A" [Input.mk "x" "f32" []])).find)) = funcs.map Except.ok ∧
        ∀ name, (StdMap.emplace StdMap.empty "f"
            (Function.mk "f" StdMap.empty [Input.mk "a" "f32" []])).find name =
          funcs.find? (fun f => f.name == name)) :=
  duplicate_name_keeps_first Sample.duplicates Sample.reflect0
    (Reflect.mk (StdMap.emplace StdMap.empty "A" (Structure.mk "A" [Input.mk "x" "f32" []]))
      StdMap.empty (Entries.mk [] [] []))
    (Reflect.mk (StdMap.emplace StdMap.empty "A" (Structure.mk "A" [Input.mk "x" "f32" []]))
      (StdMap.emplace StdMap.empty "f" (Function.mk "f" StdMap.empty [Input.mk "a" "f32" []]))
      (Entries.mk [] [] []))
    (by rfl) (by rfl) (by rfl) (by rfl)

/-- Counterexample to C3 as stated: in `struct A { x: f32 } struct A { y: i32 }`
the two declarations are matched in this order, the last one builds the
record with member `y`, and the structure map holds under `A` the record with
member `x`, which is the first one. -/
theorem duplicate_name_last_not_kept :
    query Sample.duplicates "struct_declaration" =
        [Sample.structDecl "A" "x" (Sample.builtinType "f32"),
         Sample.structDecl "A" "y" (Sample.builtinType "i32")] ∧
      Structure.ctor (Sample.structDecl "A" "y" (Sample.builtinType "i32")) =
        .ok (Structure.mk "A" [Input.mk "y" "i32" []]) ∧
      (parseStructures Sample.duplicates Sample.reflect0).map
          (fun r => r.m_structures.find "A") =
        .ok (some (Structure.mk "A" [Input.mk "x" "f32" []])) ∧
      Structure.mk "A" [Input.mk "x" "f32" []] ≠ Structure.mk "A" [Input.mk "y" "i32" []] :=
  ⟨by rfl, by rfl, by rfl, by decide⟩

/-! ## Entry points -/

theorem entrypointChildren_ok (m : StdMap Function) (name : String) :
    ∀ (cs : List Node) (e e1 : Entries),
      entrypointChildren m name cs e = .ok e1 →
      (∀ f, m.find name = some f →
        e1.vertex = e.vertex ++ List.replicate (cs.filter (readsStage "vertex")).length f ∧
        e1.fragment = e.fragment ++ List.replicate (cs.filter (readsStage "fragment")).length f ∧
        e1.compute = e.compute ++ List.replicate (cs.filter (readsStage "compute")).length f) ∧
      (m.find name = none → e1 = e ∧ ∀ stage, (cs.filter (readsStage stage)).length = 0) := by
  intro cs
  induction cs with
  | nil =>
    intro e e1 h
    simp only [entrypointChildren, Except.ok.injEq] at h
    subst h
    simp
  | cons c rest ih =>
    intro e e1 h
    unfold entrypointChildren at h
    by_cases ha : c.type = "attribute"
    · simp only [ha, ne_eq, not_true_eq_false, if_false] at h
      cases hm : m.find name with
      | none => simp [hm] at h
      | some f =>
        simp only [hm] at h
        cases hf : c.namedChild 0 with
        | error e => simp [hf] at h
        | ok first =>
          simp only [hf] at h
          refine ⟨?_, by intro hx; simp at hx⟩
          intro f1 hf1
          simp only [Option.some.injEq] at hf1
          subst hf1
          by_cases hv : first.str = "vertex"
          · simp only [hv, if_true] at h
            obtain ⟨h1, h2, h3⟩ := (ih _ _ h).1 f (by simpa using hm)
            simp [h1, h2, h3, List.filter_cons, readsStage, ha, hf, hv, List.replicate_succ]
          · simp only [hv, if_false] at h
            by_cases hg : first.str = "fragment"
            · simp only [hg, if_true] at h
              obtain ⟨h1, h2, h3⟩ := (ih _ _ h).1 f (by simpa using hm)
              simp [h1, h2, h3, List.filter_cons, readsStage, ha, hf, hg, List.replicate_succ]
            · simp only [hg, if_false] at h
              by_cases hc : first.str = "compute"
              · simp only [hc, if_true] at h
                obtain ⟨h1, h2, h3⟩ := (ih _ _ h).1 f (by simpa using hm)
                simp [h1, h2, h3, List.filter_cons, readsStage, ha, hf, hc, List.replicate_succ]
              · simp only [hc, if_false] at h
                obtain ⟨h1, h2, h3⟩ := (ih _ _ h).1 f (by simpa using hm)
                simp [h1, h2, h3, List.filter_cons, readsStage, ha, hf, hv, hg, hc]
    · simp only [ha, ne_eq, not_false_eq_true, if_true] at h
      obtain ⟨h1, h2⟩ := ih _ _ h
      refine ⟨?_, ?_⟩
      · intro f hf
        simpa [List.filter_cons, readsStage, ha] using h1 f hf
      · intro hn
        simpa [List.filter_cons, readsStage, ha] using h2 hn

theorem parseEntrypointsLoop_ok (m : StdMap Function) :
    ∀ (decls : List Node) (e e1 : Entries),
      parseEntrypointsLoop m decls e = .ok e1 →
      e1.vertex = e.vertex ++ decls.flatMap (stageEntries m "vertex") ∧
      e1.fragment = e.fragment ++ decls.flatMap (stageEntries m "fragment") ∧
      e1.compute = e.compute ++ decls.flatMap (stageEntries m "compute") ∧
      ∀ d ∈ decls, ∃ name, declaredName d = some name ∧
        (m.find name = none → ∀ stage, stageAttributeCount stage d = 0) := by
  intro decls
  induction decls with
  | nil =>
    intro e e1 h
    simp only [parseEntrypointsLoop, Except.ok.injEq] at h
    subst h
    simp
  | cons d rest ih =>
    intro e e1 h
    unfold parseEntrypointsLoop at h
    cases hn : d.child "name" with
    | error err => simp [hn] at h
    | ok n =>
      simp only [hn] at h
      cases hc : entrypointChildren m n.str d.namedChildren e with
      | error err => simp [hc] at h
      | ok e2 =>
        simp only [hc] at h
        obtain ⟨h1, h2, h3, h4⟩ := ih _ _ h
        obtain ⟨c1, c2⟩ := entrypointChildren_ok m n.str _ _ _ hc
        have hdn : declaredName d = some n.str := by simp [declaredName, hn]
        have hd : ∀ q ∈ d :: rest, ∃ name, declaredName q = some name ∧
            (m.find name = none → ∀ stage, stageAttributeCount stage q = 0) := by
          intro q hq
          rcases List.mem_cons.mp hq with rfl | hq
          · exact ⟨n.str, hdn, fun hnone => (c2 hnone).2⟩
          · exact h4 q hq
        cases hm : m.find n.str with
        | none =>
          have he := (c2 hm).1
          subst he
          refine ⟨?_, ?_, ?_, hd⟩
          · simp [h1, List.flatMap_cons, stageEntries, hdn, hm]
          · simp [h2, List.flatMap_cons, stageEntries, hdn, hm]
          · simp [h3, List.flatMap_cons, stageEntries, hdn, hm]
        | some f =>
          obtain ⟨v1, v2, v3⟩ := c1 f hm
          refine ⟨?_, ?_, ?_, hd⟩
          · simp [h1, v1, List.flatMap_cons, stageEntries, hdn, hm, stageAttributeCount]
          · simp [h2, v2, List.flatMap_cons, stageEntries, hdn, hm, stageAttributeCount]
          · simp [h3, v3, List.flatMap_cons, stageEntries, hdn, hm, stageAttributeCount]

/-- C5. After `parseEntrypoints`, each stage list is what it held before
followed, declaration by declaration in the order of the function-declaration
query, by the function the map holds under the declared name, once per
attribute of the declaration that reads this stage keyword. A declaration
with attributes for several stage keywords is thus in each of these lists,
and attributes that read anything else add to no list. -/
theorem entry_lists_follow_declarations (tree : Node) (r r1 : Reflect)
    (h : parseEntrypoints tree r = .ok r1) :
    r1.m_entries.vertex = r.m_entries.vertex ++
        (query tree "function_declaration").flatMap (stageEntries r.m_functions "vertex") ∧
      r1.m_entries.fragment = r.m_entries.fragment ++
        (query tree "function_declaration").flatMap (stageEntries r.m_functions "fragment") ∧
      r1.m_entries.compute = r.m_entries.compute ++
        (query tree "function_declaration").flatMap (stageEntries r.m_functions "compute") := by
  unfold parseEntrypoints at h
  cases hl : parseEntrypointsLoop r.m_functions (query tree "function_declaration")
      r.m_entries with
  | error e => simp [hl] at h
  | ok entries =>
    simp only [hl, Except.ok.injEq] at h
    subst h
    obtain ⟨h1, h2, h3, _⟩ := parseEntrypointsLoop_ok _ _ _ _ hl
    exact ⟨h1, h2, h3⟩

/-- Witness of C5: in the source `stages`, `a` is in the vertex and compute
lists, `b` in the fragment list only, and `c` follows `a` in the vertex
list. -/
theorem entry_lists_follow_declarations_witness :
    [Sample.fnRecord ["vertex", "compute"] "a" "p" "f32",
        Sample.fnRecord ["vertex"] "c" "s" "f32"] =
      [] ++ (query Sample.stages "function_declaration").flatMap
        (stageEntries Sample.stagesFunctions "vertex") ∧
      [Sample.fnRecord ["fragment", "other"] "b" "q" "f32"] =
        [] ++ (query Sample.stages "function_declaration").flatMap
          (stageEntries Sample.stagesFunctions "fragment") ∧
      [Sample.fnRecord ["vertex", "compute"] "a" "p" "f32"] =
        [] ++ (query Sample.stages "function_declaration").flatMap
          (stageEntries Sample.stagesFunctions "compute") :=
  entry_lists_follow_declarations Sample.stages
    (Reflect.mk StdMap.empty Sample.stagesFunctions (Entries.mk [] [] []))
    (Reflect.mk StdMap.empty Sample.stagesFunctions
      (Entries.mk
        [Sample.fnRecord ["vertex", "compute"] "a" "p" "f32",
         Sample.fnRecord ["vertex"] "c" "s" "f32"]
        [Sample.fnRecord ["fragment", "other"] "b" "q" "f32"]
        [Sample.fnRecord ["vertex", "compute"] "a" "p" "f32"]))
    (by rfl)

theorem parseFunctionsLoop_names (getStruct : String → Option Structure)
    (decls : List Node) (m : StdMap Function)
    (h : parseFunctionsLoop getStruct decls StdMap.empty = .ok m) :
    ∀ key f, m.find key = some f → f.name = key := by
  intro key f hf
  obtain ⟨funcs, _, h2⟩ := parseFunctionsLoop_ok getStruct decls _ _ h
  rw [h2, StdMap.find_foldl_emplace] at hf
  simp only [StdMap.empty, StdMap.find, Option.none_or] at hf
  simpa using List.find?_some hf

theorem stageEntries_count (m : StdMap Function)
    (hinv : ∀ key f, m.find key = some f → f.name = key) (stage name : String) :
    ∀ decls : List Node,
      (∀ d ∈ decls, ∃ n, declaredName d = some n ∧
        (m.find n = none → ∀ stage, stageAttributeCount stage d = 0)) →
      ((decls.flatMap (stageEntries m stage)).filter (fun f => f.name == name)).length =
        ((decls.filter (fun d => declaredName d == some name)).map
          (stageAttributeCount stage)).sum := by
  intro decls
  induction decls with
  | nil => intro _; simp
  | cons d rest ih =>
    intro hd
    have hrest := ih (fun q hq => hd q (List.mem_cons_of_mem _ hq))
    obtain ⟨n, hn, hzero⟩ := hd d (List.mem_cons_self _ _)
    rw [List.flatMap_cons, List.filter_append, List.length_append, hrest]
    cases hm : m.find n with
    | none =>
      have h0 := hzero hm stage
      by_cases hk : n = name
      · subst hk
        simp [stageEntries, hn, hm, List.filter_cons, h0]
      · simp [stageEntries, hn, hm, List.filter_cons, hk]
    | some f =>
      have hname : f.name = n := hinv n f hm
      by_cases hk : n = name
      · subst hk
        have hall : (List.replicate (stageAttributeCount stage d) f).filter
            (fun g => g.name == n) = List.replicate (stageAttributeCount stage d) f := by
          apply List.filter_eq_self.mpr
          intro a ha
          rw [List.eq_of_mem_replicate ha]
          simp [hname]
        simp [stageEntries, hn, hm, List.filter_cons, hall]
      · have hnone : (List.replicate (stageAttributeCount stage d) f).filter
            (fun f => f.name == name) = [] := by
          apply List.filter_eq_nil_iff.mpr
          intro a ha
          rw [List.eq_of_mem_replicate ha]
          simp [hname, hk]
        simp [stageEntries, hn, hm, List.filter_cons, hk, hnone]

/-- C4, as the code has it. When the construction of the reflection model
succeeds, each stage list holds, for every name, as many functions of that
name as the declarations of that name carry attributes reading the stage
keyword: one entry per attribute occurrence, a repeated attribute being
counted each time. With distinct function names and a single `vertex`
attribute the function is thus in the vertex list exactly once. -/
theorem stage_entries_per_attribute (tree : Node) (r : Reflect) (name : String)
    (h : Reflect.initialise tree = .ok r) :
    (r.m_entries.vertex.filter (fun f => f.name == name)).length =
        (((query tree "function_declaration").filter
          (fun d => declaredName d == some name)).map (stageAttributeCount "vertex")).sum ∧
      (r.m_entries.fragment.filter (fun f => f.name == name)).length =
        (((query tree "function_declaration").filter
          (fun d => declaredName d == some name)).map (stageAttributeCount "fragment")).sum ∧
      (r.m_entries.compute.filter (fun f => f.name == name)).length =
        (((query tree "function_declaration").filter
          (fun d => declaredName d == some name)).map (stageAttributeCount "compute")).sum := by
  unfold Reflect.initialise at h
  cases h1 : parseStructures tree
      (Reflect.mk StdMap.empty StdMap.empty (Entries.mk [] [] [])) with
  | error e => simp [h1] at h
  | ok r1 =>
    simp only [h1] at h
    cases h2 : parseFunctions tree r1 with
    | error e => simp [h2] at h
    | ok r2 =>
      simp only [h2] at h
      unfold parseStructures at h1
      cases hl1 : parseStructuresLoop (query tree "struct_declaration") StdMap.empty with
      | error e => simp [hl1] at h1
      | ok m1 =>
        simp only [hl1, Except.ok.injEq] at h1
        subst h1
        unfold parseFunctions at h2
        cases hl2 : parseFunctionsLoop m1.find (query tree "function_declaration")
            StdMap.empty with
        | error e => simp [hl2] at h2
        | ok m2 =>
          simp only [hl2, Except.ok.injEq] at h2
          subst h2
          unfold parseEntrypoints at h
          cases hl3 : parseEntrypointsLoop m2 (query tree "function_declaration")
              (Entries.mk [] [] []) with
          | error e => simp [hl3] at h
          | ok entries =>
            simp only [hl3, Except.ok.injEq] at h
            subst h
            obtain ⟨e1, e2, e3, e4⟩ := parseEntrypointsLoop_ok _ _ _ _ hl3
            have hinv := parseFunctionsLoop_names _ _ _ hl2
            simp only [e1, e2, e3, List.nil_append]
            exact ⟨stageEntries_count m2 hinv "vertex" name _ e4,
              stageEntries_count m2 hinv "fragment" name _ e4,
              stageEntries_count m2 hinv "compute" name _ e4⟩

/-- Witness of C4 as amended: `@vertex @vertex fn main(p: f32) {}` puts two
functions named `main` in the vertex list. -/
theorem stage_entries_per_attribute_witness :
    (([Sample.fnRecord ["vertex", "vertex"] "main" "p" "f32",
          Sample.fnRecord ["vertex", "vertex"] "main" "p" "f32"]).filter
        (fun f => f.name == "main")).length =
        (((query Sample.repeated "function_declaration").filter
          (fun d => declaredName d == some "main")).map (stageAttributeCount "vertex")).sum ∧
      ((([] : List Function)).filter (fun f => f.name == "main")).length =
        (((query Sample.repeated "function_declaration").filter
          (fun d => declaredName d == some "main")).map (stageAttributeCount "fragment")).sum ∧
      ((([] : List Function)).filter (fun f => f.name == "main")).length =
        (((query Sample.repeated "function_declaration").filter
          (fun d => declaredName d == some "main")).map (stageAttributeCount "compute")).sum :=
  stage_entries_per_attribute Sample.repeated
    (Reflect.mk StdMap.empty
      (StdMap.emplace StdMap.empty "main" (Sample.fnRecord ["vertex", "vertex"] "main" "p" "f32"))
      (Entries.mk
        [Sample.fnRecord ["vertex", "vertex"] "main" "p" "f32",
         Sample.fnRecord ["vertex", "vertex"] "main" "p" "f32"] [] []))
    "main" (by rfl)

/-- Counterexample to C4 as stated: the source `@vertex @vertex fn main(p: f32) {}`
has one function declaration, and its vertex list holds `main` twice. -/
theorem repeated_stage_attribute_appends_twice :
    (query Sample.repeated "function_declaration").length = 1 ∧
      (Reflect.initialise Sample.repeated).map
          (fun r => r.m_entries.vertex.map Function.name) = .ok ["main", "main"] :=
  ⟨by rfl, by rfl⟩

/-! ## Bindings -/

theorem bindingLoop_attributesOnly (T : IndexType) :
    ∀ (cs : List Node) (st : Binding), attributesOnly cs →
      bindingLoop T cs st = .ok
        { st with binding := decodeIndex T "binding" cs st.binding,
                  group := decodeIndex T "group" cs st.group } := by
  intro cs
  induction cs with
  | nil => intro st _; simp [bindingLoop, decodeIndex]
  | cons c rest ih =>
    intro st h
    have hrest : attributesOnly rest := fun q hq => h q (List.mem_cons_of_mem _ hq)
    obtain ⟨hv, hw⟩ := h c (List.mem_cons_self _ _)
    unfold bindingLoop
    by_cases ha : c.type = "attribute"
    · have hwf := hw ha
      unfold wellFormedIndexAttribute at hwf
      cases h0 : c.namedChild 0 with
      | error e => simp [h0] at hwf
      | ok first =>
        simp only [h0] at hwf
        by_cases hb : first.str = "binding"
        · have hng : ¬ first.str = "group" := by rw [hb]; decide
          simp only [hb, true_or, if_true] at hwf
          cases h1 : c.namedChild 1 with
          | error e => simp [h1] at hwf
          | ok vnode =>
            simp only [h1, beq_iff_eq] at hwf
            simp only [bindingStep, ha, if_true, bindingAttribute, h0, hb, h1, hwf, ne_eq,
              not_true_eq_false, if_false]
            rw [ih _ hrest]
            simp [decodeIndex, List.filterMap_cons, indexLiteral, ha, h0, hb, h1]
        · by_cases hg : first.str = "group"
          · simp only [hg, or_true, if_true] at hwf
            cases h1 : c.namedChild 1 with
            | error e => simp [h1] at hwf
            | ok vnode =>
              simp only [h1, beq_iff_eq] at hwf
              have hgb : ¬ ("group" : String) = "binding" := by decide
              simp only [bindingStep, ha, if_true, bindingAttribute, h0, hg, hgb, h1, hwf, ne_eq,
                not_true_eq_false, if_false]
              rw [ih _ hrest]
              simp [decodeIndex, List.filterMap_cons, indexLiteral, ha, h0, hg, h1]
          · simp only [bindingStep, ha, if_true, bindingAttribute, h0, hb, hg, if_false]
            rw [ih _ hrest]
            have hb2 : ¬ first.str = "binding" := hb
            simp [decodeIndex, List.filterMap_cons, indexLiteral, ha, h0, hb2, hg]
    · simp only [bindingStep, ha, hv, if_false]
      rw [ih _ hrest]
      simp [decodeIndex, List.filterMap_cons, indexLiteral, ha]

theorem bindingLoop_append (T : IndexType) :
    ∀ (cs ds : List Node) (st : Binding),
      bindingLoop T (cs ++ ds) st =
        match bindingLoop T cs st with
        | .error e => .error e
        | .ok st1 => bindingLoop T ds st1 := by
  intro cs
  induction cs with
  | nil => intro ds st; simp [bindingLoop]
  | cons c rest ih =>
    intro ds st
    simp only [List.cons_append, bindingLoop]
    cases hstep : bindingStep T st c with
    | error e => simp
    | ok st1 => simp [ih]

theorem decodeIndex_append (T : IndexType) (key : String) (cs ds : List Node) (start : Int) :
    decodeIndex T key (cs ++ ds) start = decodeIndex T key ds (decodeIndex T key cs start) := by
  simp [decodeIndex, List.filterMap_append, List.foldl_append]

theorem bindingLoop_around (T : IndexType) (pre post : List Node) (vd : Node)
    (st0 st2 : Binding) (hpre : attributesOnly pre) (hpost : attributesOnly post)
    (hstep : bindingStep T
        { st0 with binding := decodeIndex T "binding" pre st0.binding,
                   group := decodeIndex T "group" pre st0.group } vd = .ok st2) :
    bindingLoop T (pre ++ vd :: post) st0 = .ok
      { st2 with binding := decodeIndex T "binding" post st2.binding,
                 group := decodeIndex T "group" post st2.group } := by
  rw [bindingLoop_append, bindingLoop_attributesOnly T pre st0 hpre]
  simp only [bindingLoop, hstep]
  exact bindingLoop_attributesOnly T post st2 hpost

theorem Binding.ctor_qualified (T : IndexType) (node : Node) (pre post : List Node)
    (vd qual space idecl n tdecl tparam : Node) (g b : Int)
    (hk : node.type = "global_variable_declaration")
    (hc : node.namedChildren = pre ++ vd :: post)
    (hpre : attributesOnly pre) (hpost : attributesOnly post)
    (hg : decodeIndex T "group" (pre ++ post) T.UNSET = g)
    (hb : decodeIndex T "binding" (pre ++ post) T.UNSET = b)
    (hgu : g ≠ T.UNSET) (hbu : b ≠ T.UNSET)
    (hvd : vd.type = "variable_declaration")
    (hq : vd.firstChildOfType "variable_qualifier" = some qual)
    (hs : qual.namedChild 0 = .ok space) (hst : space.type = "address_space")
    (hsu : space.str = "uniform" ∨ space.str = "storage")
    (hi : vd.firstChildOfType "variable_identifier_declaration" = some idecl)
    (hn : idecl.child "name" = .ok n) (ht : idecl.child "type" = .ok tdecl)
    (hp : tdecl.namedChild 0 = .ok tparam)
    (hne : n.str ≠ "") (hte : tparam.str ≠ "") :
    Binding.ctor T node = .ok (Binding.mk b g n.str "buffer" tparam.str) := by
  have hva : ¬ vd.type = "attribute" := by rw [hvd]; decide
  have hbuf : ¬ ("buffer" : String) = "" := by decide
  have hstep : bindingStep T
      { (Binding.mk T.UNSET T.UNSET "" "" "") with
          binding := decodeIndex T "binding" pre T.UNSET,
          group := decodeIndex T "group" pre T.UNSET } vd =
      .ok (Binding.mk (decodeIndex T "binding" pre T.UNSET) (decodeIndex T "group" pre T.UNSET)
        n.str "buffer" tparam.str) := by
    simp [bindingStep, hva, hvd, bindingQualifier, hq, hs, hst, hsu, bindingIdentifier, hi, hn,
      ht, hbuf, hp]
  have hloop := bindingLoop_around T pre post vd (Binding.mk T.UNSET T.UNSET "" "" "") _
    hpre hpost hstep
  rw [decodeIndex_append] at hg hb
  simp only [hg, hb] at hloop
  simp [Binding.ctor, hk, hc, hloop, bindingAsserts, hgu, hbu, hne, hte]

theorem takeWhile_dropWhile_run (p : Char → Bool) (rest : List Char)
    (hr : ∀ c ∈ rest.head?, p c = false) :
    ∀ w : List Char, (∀ c ∈ w, p c = true) →
      (w ++ rest).takeWhile p = w ∧ (w ++ rest).dropWhile p = rest := by
  intro w
  induction w with
  | nil =>
    intro _
    cases rest with
    | nil => simp
    | cons c r =>
      have hc : p c = false := hr c (by simp)
      simp [List.takeWhile, List.dropWhile, hc]
  | cons a w ih =>
    intro hw
    have ha : p a = true := hw a (List.mem_cons_self _ _)
    obtain ⟨h1, h2⟩ := ih (fun c hc => hw c (List.mem_cons_of_mem _ hc))
    simp [List.takeWhile, List.dropWhile, ha, h1, h2]

theorem namedChild_error (n : Node) (i : Nat) (e : Err) (h : n.namedChild i = .error e) :
    e = .out_of_range "Out of range named child index" := by
  unfold Node.namedChild at h
  cases hg : n.namedChildren[i]? with
  | none => simp only [hg, Except.error.injEq] at h; exact h.symm
  | some c => simp [hg] at h

theorem child_error (n : Node) (fieldName : String) (e : Err)
    (h : n.child fieldName = .error e) :
    e = .out_of_range ("No node with name: " ++ fieldName) := by
  unfold Node.child at h
  cases hg : n.children.find? (fun c => c.field == some fieldName) with
  | none => simp only [hg, Except.error.injEq] at h; exact h.symm
  | some c => simp [hg] at h

/-- C10, as the code has it. No partial model: the construction runs the
structure, function and entry-point passes, fails with the error of the first
pass that fails and then returns no model; it reads the struct and function
declarations only, so two trees with the same ones have the same outcome,
whatever their global variable declarations are. -/
theorem initialise_runs_three_passes (tree : Node) :
    (∀ e, parseStructures tree (Reflect.mk StdMap.empty StdMap.empty (Entries.mk [] [] [])) =
        .error e → Reflect.initialise tree = .error e) ∧
      (∀ r1 e, parseStructures tree (Reflect.mk StdMap.empty StdMap.empty (Entries.mk [] [] [])) =
        .ok r1 → parseFunctions tree r1 = .error e → Reflect.initialise tree = .error e) ∧
      (∀ r1 r2, parseStructures tree (Reflect.mk StdMap.empty StdMap.empty (Entries.mk [] [] [])) =
        .ok r1 → parseFunctions tree r1 = .ok r2 →
        Reflect.initialise tree = parseEntrypoints tree r2) ∧
      (∀ other, query other "struct_declaration" = query tree "struct_declaration" →
        query other "function_declaration" = query tree "function_declaration" →
        Reflect.initialise other = Reflect.initialise tree) := by
  refine ⟨?_, ?_, ?_, ?_⟩
  · intro e h
    simp [Reflect.initialise, h]
  · intro r1 e h1 h2
    simp [Reflect.initialise, h1, h2]
  · intro r1 r2 h1 h2
    simp [Reflect.initialise, h1, h2]
  · intro other hs hf
    simp only [Reflect.initialise, parseStructures, parseFunctions, parseEntrypoints, hs, hf]

/-- Witness of C10 as amended: a malformed global binding between a struct
and a function leaves the outcome of the construction as it is without it. -/
theorem initialise_runs_three_passes_witness :
    Reflect.initialise Sample.structBindingFunction =
      Reflect.initialise Sample.structAndFunction :=
  (initialise_runs_three_passes Sample.structAndFunction).2.2.2 Sample.structBindingFunction
    (by rfl) (by rfl)

/-- Counterexample to C10 as stated: for the source
`@group(0) @binding("x") var<storage> b: Foo;` the construction of a Binding
from the declaration fails with the unsupported-literal error, and the
construction of the reflection model returns a model. -/
theorem malformed_binding_passes_initialise :
    query Sample.onlyStringBinding "global_variable_declaration" = [Sample.stringBinding] ∧
      Binding.ctor Sample.u32 Sample.stringBinding =
        .error (UnsupportedLiteralType "binding" "ERROR") ∧
      (Reflect.initialise Sample.onlyStringBinding).toBool = true :=
  ⟨by rfl, by rfl, by rfl⟩

/-! ## Binding invariant -/

/-- C11. Binding post-construction invariant: a Binding that the
construction returns has group and binding different from the sentinel and
name, bindingType and type non-empty; and when the traversal of a
global-variable-declaration node ends with one of the five fields unset, the
construction fails on the matching closing assertion and returns no
Binding. -/
theorem binding_fields_are_set (T : IndexType) (node : Node) :
    (∀ b, Binding.ctor T node = .ok b →
        b.binding ≠ T.UNSET ∧ b.group ≠ T.UNSET ∧ b.name ≠ "" ∧ b.bindingType ≠ "" ∧
          b.type ≠ "") ∧
      (∀ st, node.type = "global_variable_declaration" →
        bindingLoop T node.namedChildren (Binding.mk T.UNSET T.UNSET "" "" "") = .ok st →
        (st.binding = T.UNSET ∨ st.group = T.UNSET ∨ st.name = "" ∨ st.bindingType = "" ∨
          st.type = "") →
        ∃ e, MalformedBinding e ∧ Binding.ctor T node = .error e) := by
  refine ⟨?_, ?_⟩
  · intro b h
    unfold Binding.ctor at h
    by_cases hk : node.type = "global_variable_declaration"
    · simp only [hk, ne_eq, not_true_eq_false, if_false] at h
      cases hl : bindingLoop T node.namedChildren (Binding.mk T.UNSET T.UNSET "" "" "") with
      | error e => simp [hl] at h
      | ok st =>
        simp only [hl] at h
        unfold bindingAsserts at h
        by_cases h1 : st.binding = T.UNSET
        · simp [h1] at h
        · by_cases h2 : st.group = T.UNSET
          · simp [h1, h2] at h
          · by_cases h3 : st.name = ""
            · simp [h1, h2, h3] at h
            · by_cases h4 : st.bindingType = ""
              · simp [h1, h2, h3, h4] at h
              · by_cases h5 : st.type = ""
                · simp [h1, h2, h3, h4, h5] at h
                · simp only [h1, h2, h3, h4, h5, if_false, Except.ok.injEq] at h
                  subst h
                  exact ⟨h1, h2, h3, h4, h5⟩
    · simp [hk] at h
  · intro st hk hl hunset
    simp only [Binding.ctor, hk, ne_eq, not_true_eq_false, if_false, hl, bindingAsserts]
    by_cases h1 : st.binding = T.UNSET
    · exact ⟨_, Or.inl rfl, by simp [h1]⟩
    · by_cases h2 : st.group = T.UNSET
      · exact ⟨_, Or.inr (Or.inl rfl), by simp [h1, h2]⟩
      · by_cases h3 : st.name = ""
        · exact ⟨_, Or.inr (Or.inr (Or.inl rfl)), by simp [h1, h2, h3]⟩
        · by_cases h4 : st.bindingType = ""
          · exact ⟨_, Or.inr (Or.inr (Or.inr (Or.inl rfl))), by simp [h1, h2, h3, h4]⟩
          · by_cases h5 : st.type = ""
            · exact ⟨_, Or.inr (Or.inr (Or.inr (Or.inr rfl))), by simp [h1, h2, h3, h4, h5]⟩
            · rcases hunset with h | h | h | h | h
              · exact absurd h h1
              · exact absurd h h2
              · exact absurd h h3
              · exact absurd h h4
              · exact absurd h h5

/-- Witness of C11: `@binding(0) var<uniform> u: MyUniform;` has no `group`
attribute, the traversal ends with the group unset, and the construction
fails on a closing assertion. -/
theorem binding_fields_are_set_witness :
    ∃ e, MalformedBinding e ∧ Binding.ctor Sample.u32 Sample.noGroup = .error e :=
  (binding_fields_are_set Sample.u32 Sample.noGroup).2
    (Binding.mk 0 4294967295 "u" "buffer" "MyUniform") (by rfl) (by rfl)
    (Or.inr (Or.inl (by rfl)))

/-! ## The input parser -/

theorem inputAttributeOf_eq (c a v : Node) (h0 : c.namedChild 0 = .ok a)
    (h1 : c.namedChild 1 = .ok v) :
    inputAttributeOf c = some (InputAttribute.mk a.str v.str) := by
  unfold Node.namedChild at h0 h1
  unfold inputAttributeOf
  cases hl : c.namedChildren with
  | nil => simp [hl] at h0
  | cons x rest =>
    cases rest with
    | nil => simp [hl] at h1
    | cons y rest2 =>
      simp only [hl, List.getElem?_cons_zero, List.getElem?_cons_succ, Except.ok.injEq] at h0 h1
      subst h0
      subst h1
      rfl

theorem parseInputLoop_wellFormed :
    ∀ (cs : List Node) (input : Input) (haveName : Bool),
      (∀ c ∈ cs, wellFormedInputChild c) →
      parseInputLoop cs input haveName = .ok
        (Input.mk
          (((cs.filter (fun c => c.type == "variable_identifier_declaration")).getLast?.map
            (fun c => fieldText c "name")).getD input.name)
          (((cs.filter (fun c => c.type == "variable_identifier_declaration")).getLast?.map
            (fun c => fieldText c "type")).getD input.type)
          (input.attributes ++
            (cs.filter (fun c => c.type == "attribute")).filterMap inputAttributeOf),
         haveName ||
           !(cs.filter (fun c => c.type == "variable_identifier_declaration")).isEmpty) := by
  intro cs
  induction cs with
  | nil => intro input haveName _; simp [parseInputLoop]
  | cons c rest ih =>
    intro input haveName hwf
    have hrest : ∀ q ∈ rest, wellFormedInputChild q :=
      fun q hq => hwf q (List.mem_cons_of_mem _ hq)
    obtain ⟨hid, hat⟩ := hwf c (List.mem_cons_self _ _)
    unfold parseInputLoop
    by_cases hi : c.type = "variable_identifier_declaration"
    · obtain ⟨n, t, hn, ht⟩ := hid hi
      have hna : ¬ c.type = "attribute" := by rw [hi]; decide
      have hfn : fieldText c "name" = n.str := by simp [fieldText, hn]
      have hft : fieldText c "type" = t.str := by simp [fieldText, ht]
      simp only [hi, if_true, hn, ht]
      rw [ih _ _ hrest]
      cases hl : (rest.filter (fun c => c.type == "variable_identifier_declaration")).getLast?
        <;> simp [List.filter_cons, hi, hl, List.getLast?_cons, hfn, hft]
    · by_cases ha : c.type = "attribute"
      · obtain ⟨a, v, h0, h1⟩ := hat ha
        have hio := inputAttributeOf_eq c a v h0 h1
        simp only [hi, if_false, ha, if_true, h0, h1]
        rw [ih _ _ hrest]
        simp [List.filter_cons, hi, ha, hio]
      · simp only [hi, if_false, ha]
        rw [ih _ _ hrest]
        simp [List.filter_cons, hi, ha]

theorem parseInputLoop_ok_wellFormed :
    ∀ (cs : List Node) (input : Input) (haveName : Bool) (res : Input × Bool),
      parseInputLoop cs input haveName = .ok res → ∀ c ∈ cs, wellFormedInputChild c := by
  intro cs
  induction cs with
  | nil => intro input haveName res _ c hc; cases hc
  | cons c rest ih =>
    intro input haveName res h q hq
    unfold parseInputLoop at h
    by_cases hi : c.type = "variable_identifier_declaration"
    · have hna : ¬ c.type = "attribute" := by rw [hi]; decide
      simp only [hi, if_true] at h
      cases hn : c.child "name" with
      | error e => simp [hn] at h
      | ok n =>
        simp only [hn] at h
        cases ht : c.child "type" with
        | error e => simp [ht] at h
        | ok t =>
          simp only [ht] at h
          rcases List.mem_cons.mp hq with rfl | hq
          · exact ⟨fun _ => ⟨n, t, hn, ht⟩, fun ha => absurd ha hna⟩
          · exact ih _ _ _ h q hq
    · simp only [hi, if_false] at h
      by_cases ha : c.type = "attribute"
      · simp only [ha, if_true] at h
        cases h0 : c.namedChild 0 with
        | error e => simp [h0] at h
        | ok a =>
          simp only [h0] at h
          cases h1 : c.namedChild 1 with
          | error e => simp [h1] at h
          | ok v =>
            simp only [h1] at h
            rcases List.mem_cons.mp hq with rfl | hq
            · exact ⟨fun hx => absurd hx hi, fun _ => ⟨a, v, h0, h1⟩⟩
            · exact ih _ _ _ h q hq
      · simp only [ha, if_false] at h
        rcases List.mem_cons.mp hq with rfl | hq
        · exact ⟨fun hx => absurd hx hi, fun hx => absurd hx ha⟩
        · exact ih _ _ _ h q hq

theorem parseInputLoop_error :
    ∀ (cs : List Node) (input : Input) (haveName : Bool) (e : Err),
      parseInputLoop cs input haveName = .error e → ∃ msg, e = .out_of_range msg := by
  intro cs
  induction cs with
  | nil => intro input haveName e h; simp [parseInputLoop] at h
  | cons c rest ih =>
    intro input haveName e h
    unfold parseInputLoop at h
    by_cases hi : c.type = "variable_identifier_declaration"
    · simp only [hi, if_true] at h
      cases hn : c.child "name" with
      | error e1 =>
        simp only [hn, Except.error.injEq] at h
        exact ⟨_, h ▸ child_error _ _ _ hn⟩
      | ok n =>
        simp only [hn] at h
        cases ht : c.child "type" with
        | error e1 =>
          simp only [ht, Except.error.injEq] at h
          exact ⟨_, h ▸ child_error _ _ _ ht⟩
        | ok t =>
          simp only [ht] at h
          exact ih _ _ _ h
    · simp only [hi, if_false] at h
      by_cases ha : c.type = "attribute"
      · simp only [ha, if_true] at h
        cases h0 : c.namedChild 0 with
        | error e1 =>
          simp only [h0, Except.error.injEq] at h
          exact ⟨_, h ▸ namedChild_error _ _ _ h0⟩
        | ok a =>
          simp only [h0] at h
          cases h1 : c.namedChild 1 with
          | error e1 =>
            simp only [h1, Except.error.injEq] at h
            exact ⟨_, h ▸ namedChild_error _ _ _ h1⟩
          | ok v =>
            simp only [h1] at h
            exact ih _ _ _ h
      · simp only [ha, if_false] at h
        exact ih _ _ _ h

/-- C12, as the code has it. `parseInput` fails on its assertion
(`MissingRequiredChild`) only when the node has no named child of kind
`variable_identifier_declaration`. When the named children are well formed
(every identifier declaration has its fields `name` and `type`, every
attribute child has two named sub-items) the converse holds as well: without
such a child `parseInput` fails with `MissingRequiredChild`, and with one it
returns an Input whose name and type are the texts of the `name` and `type`
fields of the last such child. -/
theorem parseInput_failure_condition (node : Node) :
    (parseInput node = .error MissingRequiredChild → identifierDeclarationsOf node = []) ∧
      ((∀ c ∈ node.namedChildren, wellFormedInputChild c) →
        (identifierDeclarationsOf node = [] → parseInput node = .error MissingRequiredChild) ∧
        (∀ c n t, (identifierDeclarationsOf node).getLast? = some c →
          c.child "name" = .ok n → c.child "type" = .ok t →
          ∃ input, parseInput node = .ok input ∧ input.name = n.str ∧ input.type = t.str)) := by
  refine ⟨?_, ?_⟩
  · intro h
    unfold parseInput at h
    cases hl : parseInputLoop node.namedChildren (Input.mk "" "" []) false with
    | error e =>
      obtain ⟨msg, he⟩ := parseInputLoop_error _ _ _ _ hl
      subst he
      simp [hl, MissingRequiredChild] at h
    | ok res =>
      have hwf := parseInputLoop_ok_wellFormed _ _ _ _ hl
      rw [parseInputLoop_wellFormed _ _ _ hwf] at hl h
      simp only [Bool.false_or] at h
      cases hemp : (node.namedChildren.filter
          (fun c => c.type == "variable_identifier_declaration")).isEmpty with
      | true => simpa [identifierDeclarationsOf] using hemp
      | false => simp [hemp] at h
  · intro hwf
    have hl := parseInputLoop_wellFormed node.namedChildren (Input.mk "" "" []) false hwf
    refine ⟨?_, ?_⟩
    · intro hnone
      unfold identifierDeclarationsOf at hnone
      simp [parseInput, hl, hnone, MissingRequiredChild]
    · intro c n t hlast hn ht
      unfold identifierDeclarationsOf at hlast
      have hne : (node.namedChildren.filter
          (fun c => c.type == "variable_identifier_declaration")).isEmpty = false := by
        cases hf : node.namedChildren.filter
            (fun c => c.type == "variable_identifier_declaration") with
        | nil => simp [hf] at hlast
        | cons x xs => rfl
      unfold parseInput
      rw [hl]
      simp only [hne, Bool.false_or, Bool.not_false, if_true]
      exact ⟨_, rfl, by simp [hlast, fieldText, hn], by simp [hlast, fieldText, ht]⟩

/-- Witness of C12 as amended: the parameter `@location(0) uv: vec2<f32>` is
well formed and is parsed into the input `uv` of type `vec2<f32>`. -/
theorem parseInput_failure_condition_witness :
    ∃ input, parseInput Sample.locationUv = .ok input ∧
      input.name = (Sample.identifierAt "name" "uv").str ∧
      input.type = (Sample.builtinType "vec2<f32>").str :=
  ((parseInput_failure_condition Sample.locationUv).2
    (by
      intro c hc
      have hc2 : c = Sample.attrArg "location" "int_literal" "0" ∨
          c = Sample.identDecl "uv" (Sample.builtinType "vec2<f32>") := by
        simpa [Sample.locationUv, Sample.memberWith, Node.namedChildren, Node.children,
          Node.isNamed, Sample.attrArg, Sample.identDecl] using hc
      rcases hc2 with rfl | rfl
      · exact ⟨fun h => absurd h (by decide), fun _ => ⟨_, _, by rfl, by rfl⟩⟩
      · exact ⟨fun _ => ⟨_, _, by rfl, by rfl⟩, fun h => absurd h (by decide)⟩)).2
    (Sample.identDecl "uv" (Sample.builtinType "vec2<f32>")) (Sample.identifierAt "name" "uv")
    (Sample.builtinType "vec2<f32>") (by rfl) (by rfl) (by rfl)

/-- Counterexample to C12 as stated: the struct member
`@invariant @builtin(position) pos: vec4<f32>` has one named child of kind
`variable_identifier_declaration`, and `parseInput` returns no Input: the
attribute without argument has no second named sub-item and `namedChild(1)`
throws `std::out_of_range`. -/
theorem parseInput_fails_despite_identifier :
    (identifierDeclarationsOf Sample.invariantFirst).length = 1 ∧
      parseInput Sample.invariantFirst =
        .error (.out_of_range "Out of range named child index") :=
  ⟨by rfl, by rfl⟩

theorem filterMap_map_some {α β : Type} (f : α → Option β) :
    ∀ l : List α, (∀ x ∈ l, ∃ y, f x = some y) → (l.filterMap f).map some = l.map f := by
  intro l
  induction l with
  | nil => intro _; rfl
  | cons x rest ih =>
    intro h
    obtain ⟨y, hy⟩ := h x (List.mem_cons_self _ _)
    have hrest := ih (fun q hq => h q (List.mem_cons_of_mem _ hq))
    simp [List.filterMap_cons, hy, hrest]

/-- C16, as the code has it. For a member or parameter node that has a
`variable_identifier_declaration` child and whose named children are well
formed (every attribute child has a first and a second named sub-item),
`parseInput` returns an Input whose attributes list has exactly one
InputAttribute per named child of kind `attribute`, in tree order, with the
texts of the first and of the second named sub-item as name and value. -/
theorem parseInput_attributes (node : Node)
    (hwf : ∀ c ∈ node.namedChildren, wellFormedInputChild c)
    (hid : identifierDeclarationsOf node ≠ []) :
    ∃ input, parseInput node = .ok input ∧
      input.attributes.length = (attributeChildrenOf node).length ∧
      input.attributes.map some = (attributeChildrenOf node).map inputAttributeOf := by
  have hl := parseInputLoop_wellFormed node.namedChildren (Input.mk "" "" []) false hwf
  have hne : (node.namedChildren.filter
      (fun c => c.type == "variable_identifier_declaration")).isEmpty = false := by
    cases hf : node.namedChildren.filter
        (fun c => c.type == "variable_identifier_declaration") with
    | nil => exact absurd hf hid
    | cons x xs => rfl
  have hsome : ∀ c ∈ node.namedChildren.filter (fun c => c.type == "attribute"),
      ∃ y, inputAttributeOf c = some y := by
    intro c hc
    obtain ⟨hmem, hty⟩ := List.mem_filter.mp hc
    obtain ⟨a, v, h0, h1⟩ := (hwf c hmem).2 (by simpa using hty)
    exact ⟨_, inputAttributeOf_eq c a v h0 h1⟩
  have hmap := filterMap_map_some inputAttributeOf _ hsome
  unfold parseInput
  rw [hl]
  simp only [hne, Bool.false_or, Bool.not_false, if_true, List.nil_append]
  refine ⟨_, rfl, ?_, hmap⟩
  have hlen := congrArg List.length hmap
  simpa [attributeChildrenOf] using hlen

/-- Witness of C16 as amended: the parameter `@location(0) uv: vec2<f32>`
has the one input attribute `location` with value `0`. -/
theorem parseInput_attributes_witness :
    ∃ input, parseInput Sample.locationUv = .ok input ∧
      input.attributes.length = (attributeChildrenOf Sample.locationUv).length ∧
      input.attributes.map some = (attributeChildrenOf Sample.locationUv).map inputAttributeOf :=
  parseInput_attributes Sample.locationUv
    (by
      intro c hc
      have hc2 : c = Sample.attrArg "location" "int_literal" "0" ∨
          c = Sample.identDecl "uv" (Sample.builtinType "vec2<f32>") := by
        simpa [Sample.locationUv, Sample.memberWith, Node.namedChildren, Node.children,
          Node.isNamed, Sample.attrArg, Sample.identDecl] using hc
      rcases hc2 with rfl | rfl
      · exact ⟨fun h => absurd h (by decide), fun _ => ⟨_, _, by rfl, by rfl⟩⟩
      · exact ⟨fun _ => ⟨_, _, by rfl, by rfl⟩, fun h => absurd h (by decide)⟩)
    (by
      intro h
      have hlen := congrArg List.length h
      revert hlen
      decide)

/-- Counterexample to C16 as stated: the struct member
`@builtin(position) @invariant pos: vec4<f32>` has a
`variable_identifier_declaration` child and two attribute children, and
`parseInput` returns no Input: `@invariant` has no second named sub-item. -/
theorem parseInput_attribute_without_value :
    (identifierDeclarationsOf Sample.invariantLast).length = 1 ∧
      (attributeChildrenOf Sample.invariantLast).length = 2 ∧
      inputAttributeOf (Sample.attr "invariant") = none ∧
      parseInput Sample.invariantLast =
        .error (.out_of_range "Out of range named child index") :=
  ⟨by rfl, by rfl, by rfl, by rfl⟩

/-! ## Function attributes -/

theorem StdMap.find_foldl_emplace_entries {β : Type} (key : String) :
    ∀ (es : List (String × β)) (m0 : StdMap β),
      (es.foldl (fun m e => m.emplace e.1 e.2) m0).find key =
        (m0.find key).or ((es.find? (fun e => e.1 == key)).map Prod.snd) := by
  intro es
  induction es with
  | nil => intro m0; simp
  | cons e rest ih =>
    intro m0
    rw [List.foldl_cons, ih, StdMap.find_emplace]
    by_cases h : e.1 = key
    · cases hm : m0.find key <;> simp [List.find?_cons, h]
    · cases hm : m0.find key <;> simp [List.find?_cons, h]

theorem functionLoop_attributes (sl : Option (String → Option Structure)) :
    ∀ (cs : List Node) (attrs0 attrs : StdMap String) (inputs0 inputs : List Input),
      functionLoop sl cs attrs0 inputs0 = .ok (attrs, inputs) →
      attrs = (cs.filterMap attributeEntry).foldl (fun m e => m.emplace e.1 e.2) attrs0 := by
  intro cs
  induction cs with
  | nil =>
    intro attrs0 attrs inputs0 inputs h
    simp only [functionLoop, Except.ok.injEq, Prod.mk.injEq] at h
    simp [h.1]
  | cons c rest ih =>
    intro attrs0 attrs inputs0 inputs h
    unfold functionLoop at h
    by_cases ha : c.type = "attribute"
    · simp only [ha, if_true] at h
      cases h0 : c.namedChild 0 with
      | error e => simp [h0] at h
      | ok first =>
        simp only [h0] at h
        have := ih _ _ _ _ h
        simpa [List.filterMap_cons, attributeEntry, ha, h0] using this
    · simp only [ha, if_false] at h
      by_cases hp : c.type = "parameter_list"
      · simp only [hp, if_true] at h
        cases hl : parameterLoop sl c.namedChildren inputs0 with
        | error e => simp [hl] at h
        | ok inputs2 =>
          simp only [hl] at h
          have := ih _ _ _ _ h
          simpa [List.filterMap_cons, attributeEntry, ha] using this
      · simp only [hp, if_false] at h
        have := ih _ _ _ _ h
        simpa [List.filterMap_cons, attributeEntry, ha] using this

theorem Function.ctor_attributes (node : Node) (sl : Option (String → Option Structure))
    (f : Function) (h : Function.ctor node sl = .ok f) (key : String) :
    f.attributes.find key =
      ((attributeEntriesOf node).find? (fun e => e.1 == key)).map Prod.snd := by
  unfold Function.ctor at h
  by_cases hk : node.type = "function_declaration"
  · simp only [hk, ne_eq, not_true_eq_false, if_false] at h
    cases hn : node.child "name" with
    | error e => simp [hn] at h
    | ok n =>
      simp only [hn] at h
      cases hl : functionLoop sl node.namedChildren StdMap.empty [] with
      | error e => simp [hl] at h
      | ok pr =>
        obtain ⟨attrs, inputs⟩ := pr
        simp only [hl, Except.ok.injEq] at h
        subst h
        have ha := functionLoop_attributes sl _ _ _ _ _ hl
        simp only [ha, StdMap.find_foldl_emplace_entries, attributeEntriesOf]
        simp [StdMap.empty, StdMap.find]
  · simp [hk] at h

/-- C13, as the code has it. The attribute map of a Function is first-write-
wins: for every key, the map of the constructed Function associates the key
with the value reconstructed from the FIRST attribute child in tree order
whose first sub-item text is the key, and has no entry for a key that no
attribute child bears; `emplace` drops the later attributes of the same
name. -/
theorem attribute_map_keeps_first (node : Node) (sl : Option (String → Option Structure))
    (f : Function) (key : String) (h : Function.ctor node sl = .ok f) :
    f.attribute key = ((attributeEntriesOf node).find? (fun e => e.1 == key)).map Prod.snd := by
  unfold Function.attribute
  exact Function.ctor_attributes node sl f h key

/-- Witness of C13 as amended: in `@workgroup_size(1) @workgroup_size(2)
fn f(p: f32) {}` the key `workgroup_size` has the value of the first
attribute. -/
theorem attribute_map_keeps_first_witness :
    Function.attribute
        (Function.mk "f" (StdMap.emplace StdMap.empty "workgroup_size" "1")
          [Input.mk "p" "f32" []]) "workgroup_size" =
      ((attributeEntriesOf Sample.sizeTwice).find?
        (fun e => e.1 == "workgroup_size")).map Prod.snd :=
  attribute_map_keeps_first Sample.sizeTwice none
    (Function.mk "f" (StdMap.emplace StdMap.empty "workgroup_size" "1") [Input.mk "p" "f32" []])
    "workgroup_size" (by rfl)

/-- Counterexample to C13 as stated: `@workgroup_size(1) @workgroup_size(2)
fn f(p: f32) {}` carries the attribute twice, the last one with the value
`2`, and the Function holds the value `1` under `workgroup_size`. -/
theorem attribute_map_last_not_kept :
    attributeEntriesOf Sample.sizeTwice = [("workgroup_size", "1"), ("workgroup_size", "2")] ∧
      (Function.ctor Sample.sizeTwice none).map (fun f => f.attribute "workgroup_size") =
        .ok (some "1") :=
  ⟨by rfl, by rfl⟩

theorem attributeValueLoop_foldl :
    ∀ (l : List Node) (value : String),
      attributeValueLoop l value =
        ((l.filter keptInValue).map Node.str).foldl (fun r s => r ++ s) value := by
  intro l
  induction l with
  | nil => intro value; rfl
  | cons s rest ih =>
    intro value
    unfold attributeValueLoop
    by_cases hp : s.str = "(" ∨ s.str = ")"
    · have hk : keptInValue s = false := by
        rcases hp with h | h <;> simp [keptInValue, h]
      simp [hp, ih, List.filter_cons, hk]
    · have hk : keptInValue s = true := by
        have h1 : ¬ s.str = "(" := fun h => hp (Or.inl h)
        have h2 : ¬ s.str = ")" := fun h => hp (Or.inr h)
        simp [keptInValue, h1, h2]
      simp [hp, ih, List.filter_cons, hk]

theorem attributeValueLoop_join (l : List Node) :
    attributeValueLoop l "" = String.join ((l.filter keptInValue).map Node.str) := by
  rw [attributeValueLoop_foldl]
  rfl

/-- C14, as the code has it. Function attribute value reconstruction: for
an attribute child of a function declaration that is the first one of its
name among the named children, the value the constructed Function stores
under the attribute's name is the concatenation, in order, of the texts of
all the siblings, named or not, that follow the attribute's first named
sub-item, those that read `(` or `)` left out. -/
theorem attribute_value_reconstruction (node : Node)
    (sl : Option (String → Option Structure)) (f : Function) (pre post : List Node)
    (c first : Node)
    (h : Function.ctor node sl = .ok f)
    (hc : node.namedChildren = pre ++ c :: post)
    (ha : c.type = "attribute") (h0 : c.namedChild 0 = .ok first)
    (hnew : ∀ a ∈ pre, a.type = "attribute" → ∀ x, a.namedChild 0 = .ok x → x.str ≠ first.str) :
    f.attribute first.str =
      some (String.join ((c.siblingsAfterFirstNamed.filter keptInValue).map Node.str)) := by
  unfold Function.attribute
  rw [Function.ctor_attributes node sl f h, attributeEntriesOf, hc, List.filterMap_append,
    List.find?_append]
  have hpre : (pre.filterMap attributeEntry).find? (fun e => e.1 == first.str) = none := by
    apply List.find?_eq_none.mpr
    intro e he
    obtain ⟨a, hmem, hae⟩ := List.mem_filterMap.mp he
    unfold attributeEntry at hae
    by_cases hat : a.type = "attribute"
    · simp only [hat, if_true] at hae
      cases hx : a.namedChild 0 with
      | error err => simp [hx] at hae
      | ok x =>
        simp only [hx, Option.some.injEq] at hae
        subst hae
        simpa using hnew a hmem hat x hx
    · simp [hat] at hae
  simp [hpre, List.filterMap_cons, attributeEntry, ha, h0, attributeValueLoop_join]

/-- Witness of C14 as amended: in `@compute @workgroup_size(8, 8) fn cs(p: f32) {}` the
value under `workgroup_size` joins the texts `8`, `,` and `8`; the one under
`compute`, an attribute without argument list, is empty. -/
theorem attribute_value_reconstruction_witness :
    Function.attribute
        (Function.mk "cs"
          (StdMap.emplace (StdMap.emplace StdMap.empty "compute" "") "workgroup_size" "8,8")
          [Input.mk "p" "f32" []]) "workgroup_size" =
      some (String.join (((Sample.attrArgs2 "workgroup_size" "8" "8").siblingsAfterFirstNamed.filter
        keptInValue).map Node.str)) :=
  attribute_value_reconstruction Sample.computeCs none
    (Function.mk "cs"
      (StdMap.emplace (StdMap.emplace StdMap.empty "compute" "") "workgroup_size" "8,8")
      [Input.mk "p" "f32" []])
    [Sample.attr "compute"]
    [Sample.identifierAt "name" "cs",
     Node.mk "parameter_list" true "p: f32" none
       [Sample.member "parameter" "p" (Sample.builtinType "f32")],
     Node.mk "compound_statement" true "\x7b\x7d" (some "body")
       [Sample.tok "\x7b", Sample.tok "\x7d"]]
    (Sample.attrArgs2 "workgroup_size" "8" "8")
    (Node.mk "identifier" true "workgroup_size" none [])
    (by rfl) (by rfl) (by rfl) (by rfl)
    (by
      intro a hmem _ x hx
      simp only [List.mem_singleton] at hmem
      subst hmem
      have hxe : x = Node.mk "identifier" true "compute" none [] := by
        have h2 : (Sample.attr "compute").namedChild 0 =
            .ok (Node.mk "identifier" true "compute" none []) := by rfl
        rw [h2] at hx
        exact (Except.ok.inj hx).symm
      subst hxe
      decide)

/-! ## Index decoding -/

theorem digitsValue_foldl :
    ∀ (cs : List Char) (acc : Nat),
      digitsValue cs acc = cs.foldl (fun n c => n * 10 + (c.toNat - '0'.toNat)) acc := by
  intro cs
  induction cs with
  | nil => intro acc; rfl
  | cons c rest ih =>
    intro acc
    simp only [digitsValue, List.foldl_cons, ih]
    rfl

theorem toNat?_digits (s : String) (n : Nat) (h : s.toNat? = some n) :
    s.data ≠ [] ∧ (∀ c ∈ s.data, c.isDigit = true) ∧
      n = s.data.foldl (fun n c => n * 10 + (c.toNat - '0'.toNat)) 0 := by
  unfold String.toNat? at h
  split at h
  · rename_i hn
    simp only [String.isNat, Bool.and_eq_true, Bool.not_eq_true', String.all_eq,
      List.all_eq_true] at hn
    simp only [Option.some.injEq, String.foldl_eq] at h
    refine ⟨?_, hn.2, h.symm⟩
    intro he
    have : s.isEmpty = true := by
      cases s
      simp_all [String.isEmpty, String.endPos, String.utf8ByteSize]
    simp [this] at hn
  · simp at h

theorem from_chars_decimal (T : IndexType) (text : String) (n : Nat) (value : Int)
    (h : text.toNat? = some n) :
    from_chars T text value =
      if T.lo ≤ (n : Int) ∧ (n : Int) ≤ T.hi then (n : Int) else value := by
  obtain ⟨hne, hall, hn⟩ := toNat?_digits text n h
  have hhead : (text.data.head? == some '-') = false := by
    cases hd : text.data with
    | nil => rfl
    | cons c rest =>
      have hc : c.isDigit = true := hall c (by simp [hd])
      have hcm : ¬ c = '-' := by
        intro hx
        rw [hx] at hc
        exact absurd hc (by decide)
      simp [hcm]
  have htake : text.data.takeWhile Char.isDigit = text.data :=
    List.takeWhile_eq_self_iff.mpr hall
  have hval : digitsValue text.data 0 = n := by rw [digitsValue_foldl, hn]
  simp only [from_chars, String.toList, hhead, Bool.and_false, Bool.false_eq_true, if_false,
    htake, hne, hval]

theorem bindingStep_indices (T : IndexType) (st st1 : Binding) (c : Node)
    (h : bindingStep T st c = .ok st1) :
    st1.binding = decodeIndex T "binding" [c] st.binding ∧
      st1.group = decodeIndex T "group" [c] st.group := by
  unfold bindingStep at h
  by_cases ha : c.type = "attribute"
  · simp only [ha, if_true] at h
    unfold bindingAttribute at h
    cases h0 : c.namedChild 0 with
    | error e => simp [h0] at h
    | ok first =>
      simp only [h0] at h
      by_cases hb : first.str = "binding"
      · have hgb : ¬ ("binding" : String) = "group" := by decide
        simp only [hb, if_true] at h
        cases h1 : c.namedChild 1 with
        | error e => simp [h1] at h
        | ok vnode =>
          simp only [h1] at h
          by_cases hl : vnode.type = "int_literal"
          · simp only [hl, ne_eq, not_true_eq_false, if_false, Except.ok.injEq] at h
            subst h
            simp [decodeIndex, indexLiteral, ha, h0, hb, h1, hgb]
          · simp [hl] at h
      · simp only [hb, if_false] at h
        by_cases hg : first.str = "group"
        · have hgb : ¬ ("group" : String) = "binding" := by decide
          simp only [hg, if_true] at h
          cases h1 : c.namedChild 1 with
          | error e => simp [h1] at h
          | ok vnode =>
            simp only [h1] at h
            by_cases hl : vnode.type = "int_literal"
            · simp only [hl, ne_eq, not_true_eq_false, if_false, Except.ok.injEq] at h
              subst h
              simp [decodeIndex, indexLiteral, ha, h0, hg, h1, hgb]
            · simp [hl] at h
        · simp only [hg, if_false, Except.ok.injEq] at h
          subst h
          have hb2 : ¬ first.str = "binding" := hb
          simp [decodeIndex, indexLiteral, ha, h0, hb2, hg]
  · simp only [ha, if_false] at h
    have hnone : ∀ key, decodeIndex T key [c] = fun v => v := by
      intro key
      funext v
      simp [decodeIndex, indexLiteral, ha]
    simp only [hnone]
    by_cases hv : c.type = "variable_declaration"
    · simp only [hv, if_true] at h
      cases hq : bindingQualifier st c with
      | error e => simp [hq] at h
      | ok stq =>
        simp only [hq] at h
        have hq1 : stq.binding = st.binding ∧ stq.group = st.group := by
          unfold bindingQualifier at hq
          split at hq
          · simp only [Except.ok.injEq] at hq; subst hq; exact ⟨rfl, rfl⟩
          · split at hq
            · simp at hq
            · split at hq
              · split at hq
                · simp only [Except.ok.injEq] at hq; subst hq; exact ⟨rfl, rfl⟩
                · simp at hq
              · simp only [Except.ok.injEq] at hq; subst hq; exact ⟨rfl, rfl⟩
        have hi1 : st1.binding = stq.binding ∧ st1.group = stq.group := by
          unfold bindingIdentifier at h
          split at h
          · simp only [Except.ok.injEq] at h; subst h; exact ⟨rfl, rfl⟩
          · split at h
            · simp at h
            · split at h
              · simp at h
              · split at h
                · split at h
                  · simp at h
                  · split at h
                    · simp at h
                    · simp only [Except.ok.injEq] at h; subst h; exact ⟨rfl, rfl⟩
                · split at h
                  · simp at h
                  · simp only [Except.ok.injEq] at h; subst h; exact ⟨rfl, rfl⟩
        exact ⟨hi1.1.trans hq1.1, hi1.2.trans hq1.2⟩
    · simp only [hv, if_false, Except.ok.injEq] at h
      subst h
      exact ⟨rfl, rfl⟩

theorem bindingLoop_indices (T : IndexType) :
    ∀ (cs : List Node) (st st1 : Binding), bindingLoop T cs st = .ok st1 →
      st1.binding = decodeIndex T "binding" cs st.binding ∧
        st1.group = decodeIndex T "group" cs st.group := by
  intro cs
  induction cs with
  | nil =>
    intro st st1 h
    simp only [bindingLoop, Except.ok.injEq] at h
    subst h
    simp [decodeIndex]
  | cons c rest ih =>
    intro st st1 h
    unfold bindingLoop at h
    cases hs : bindingStep T st c with
    | error e => simp [hs] at h
    | ok st2 =>
      simp only [hs] at h
      obtain ⟨h1, h2⟩ := ih _ _ h
      obtain ⟨s1, s2⟩ := bindingStep_indices T st st2 c hs
      have hb := decodeIndex_append T "binding" [c] rest st.binding
      have hg := decodeIndex_append T "group" [c] rest st.group
      simp only [List.singleton_append] at hb hg
      rw [hb, hg, ← s1, ← s2]
      exact ⟨h1, h2⟩

theorem Binding.ctor_ok (T : IndexType) (node : Node) (b : Binding)
    (h : Binding.ctor T node = .ok b) :
    bindingLoop T node.namedChildren (Binding.mk T.UNSET T.UNSET "" "" "") = .ok b ∧
      b.binding ≠ T.UNSET ∧ b.group ≠ T.UNSET := by
  unfold Binding.ctor at h
  by_cases hk : node.type = "global_variable_declaration"
  · simp only [hk, ne_eq, not_true_eq_false, if_false] at h
    cases hl : bindingLoop T node.namedChildren (Binding.mk T.UNSET T.UNSET "" "" "") with
    | error e => simp [hl] at h
    | ok st =>
      simp only [hl] at h
      unfold bindingAsserts at h
      by_cases h1 : st.binding = T.UNSET
      · simp [h1] at h
      · by_cases h2 : st.group = T.UNSET
        · simp [h1, h2] at h
        · simp only [h1, h2, if_false] at h
          split at h
          · simp at h
          · split at h
            · simp at h
            · split at h
              · simp at h
              · simp only [Except.ok.injEq] at h
                subst h
                exact ⟨rfl, h1, h2⟩
  · simp [hk] at h

theorem decodeIndex_none (T : IndexType) (key : String) :
    ∀ (cs : List Node) (start : Int), (∀ c ∈ cs, indexLiteral key c = none) →
      decodeIndex T key cs start = start := by
  intro cs
  induction cs with
  | nil => intro start _; rfl
  | cons c rest ih =>
    intro start h
    have hc := h c (List.mem_cons_self _ _)
    have hr := ih start (fun q hq => h q (List.mem_cons_of_mem _ hq))
    unfold decodeIndex at hr ⊢
    simpa [List.filterMap_cons, hc] using hr

theorem decodeIndex_at (T : IndexType) (key : String) (pre post : List Node) (a first vnode : Node)
    (n : Nat) (ha : a.type = "attribute") (h0 : a.namedChild 0 = .ok first)
    (hf : first.str = key) (h1 : a.namedChild 1 = .ok vnode)
    (hd : vnode.str.toNat? = some n)
    (hlast : ∀ c ∈ post, indexLiteral key c = none) (start : Int) :
    decodeIndex T key (pre ++ a :: post) start =
      if T.lo ≤ (n : Int) ∧ (n : Int) ≤ T.hi then (n : Int)
      else decodeIndex T key pre start := by
  have hone : ∀ v, decodeIndex T key [a] v = from_chars T vnode.str v := by
    intro v
    simp [decodeIndex, indexLiteral, ha, h0, hf, h1]
  have hsplit : pre ++ a :: post = pre ++ ([a] ++ post) := by simp
  rw [hsplit, decodeIndex_append, decodeIndex_append, decodeIndex_none T key post _ hlast, hone,
    from_chars_decimal T vnode.str n _ hd]

/-- C15, as the code has it. Group/binding index decoding: when the
construction returns a Binding, and an attribute reading `binding` (resp.
`group`) is the last attribute of that name on the declaration and has as
second sub-item an `int_literal` node whose text is a string of decimal
digits denoting a number `n` within the range of the field's integer type,
the binding (resp. group) field of the Binding is `n`. -/
theorem index_literal_decoded (T : IndexType) (node : Node) (pre post : List Node)
    (a first vnode : Node) (n : Nat) (b : Binding) (key : String)
    (hc : node.namedChildren = pre ++ a :: post)
    (ha : a.type = "attribute") (h0 : a.namedChild 0 = .ok first) (hf : first.str = key)
    (h1 : a.namedChild 1 = .ok vnode) (hl : vnode.type = "int_literal")
    (hd : vnode.str.toNat? = some n)
    (hlast : ∀ c ∈ post, indexLiteral key c = none)
    (hfit : T.lo ≤ (n : Int) ∧ (n : Int) ≤ T.hi)
    (hok : Binding.ctor T node = .ok b) :
    (key = "binding" → b.binding = n) ∧ (key = "group" → b.group = n) := by
  have _hkind := hl
  obtain ⟨hloop, _, _⟩ := Binding.ctor_ok T node b hok
  obtain ⟨hb, hg⟩ := bindingLoop_indices T _ _ _ hloop
  rw [hc] at hb hg
  have hat := decodeIndex_at T key pre post a first vnode n ha h0 hf h1 hd hlast T.UNSET
  refine ⟨?_, ?_⟩
  · intro hk
    subst hk
    rw [hat] at hb
    simpa [hfit] using hb
  · intro hk
    subst hk
    rw [hat] at hg
    simpa [hfit] using hg

/-- Witness of C15 as amended: `@group(2) @binding(5) var<uniform> u:
MyUniform;` yields a Binding, and the text `5` of its `binding` attribute
gives the binding 5. -/
theorem index_literal_decoded_witness :
    Binding.ctor Sample.u32 Sample.uniformU = .ok (Binding.mk 5 2 "u" "buffer" "MyUniform") ∧
      (Binding.mk 5 2 "u" "buffer" "MyUniform").binding = ((5 : Nat) : Int) :=
  ⟨by rfl,
   (index_literal_decoded Sample.u32 Sample.uniformU
    [Sample.attrArg "group" "int_literal" "2"]
    [Sample.varQualified "uniform" "u" (Sample.namedType "MyUniform")]
    (Sample.attrArg "binding" "int_literal" "5")
    (Node.mk "identifier" true "binding" none []) (Node.mk "int_literal" true "5" none [])
    5 (Binding.mk 5 2 "u" "buffer" "MyUniform") "binding"
    (by rfl) (by rfl) (by rfl) (by rfl) (by rfl) (by rfl)
    (by
      simp [Node.str, String.toNat?, String.isNat, String.all_eq, String.foldl_eq, String.isEmpty]
      decide)
    (by
      intro c hc
      simp only [List.mem_singleton] at hc
      subst hc
      rfl)
    (by decide) (by rfl)).1 rfl⟩

/-- Counterexample to C15 as stated. In `@group(0) @binding(1) @binding(2)
var<uniform> u: MyUniform;` the first `binding` attribute has the digit text
`1` and the Binding has binding 2; in `@group(0) @binding(3)
@binding(4294967296) var<uniform> u: MyUniform;`, with a 32-bit unsigned
field, the last `binding` attribute has the digit text `4294967296` and the
Binding has binding 3. -/
theorem index_literal_not_decoded :
    Binding.ctor Sample.u32 Sample.bindingTwice =
        .ok (Binding.mk 2 0 "u" "buffer" "MyUniform") ∧
      Binding.ctor Sample.u32 Sample.bindingOverflow =
        .ok (Binding.mk 3 0 "u" "buffer" "MyUniform") :=
  ⟨by rfl, by rfl⟩

/-! ## The type pattern -/

theorem matchesTypeParameter_iff (cs : List Char) :
    matchesTypeParameter cs = true ↔ ∃ p, isIdentifierText p ∧ cs = '<' :: (p ++ ['>']) := by
  constructor
  · intro h
    unfold matchesTypeParameter at h
    split at h
    · rename_i rest
      simp only [Bool.and_eq_true, Bool.not_eq_true', beq_iff_eq] at h
      obtain ⟨h1, h2⟩ := h
      refine ⟨rest.takeWhile isWordChar, ⟨?_, ?_⟩, ?_⟩
      · intro he
        simp [he] at h1
      · intro c hc
        exact (List.mem_takeWhile_imp hc)
      · rw [← h2, List.takeWhile_append_dropWhile]
    · simp at h
  · rintro ⟨p, ⟨hne, hall⟩, rfl⟩
    obtain ⟨h3, h4⟩ := takeWhile_dropWhile_run isWordChar ['>']
      (by intro c hc; simp at hc; subst hc; decide) p hall
    have hpe : p.isEmpty = false := by
      cases p with
      | nil => exact absurd rfl hne
      | cons a r => rfl
    simp [matchesTypeParameter, h3, h4, hpe]

theorem isOptionalParameter_iff (cs : List Char) :
    (cs.isEmpty || matchesTypeParameter cs) = true ↔ isOptionalParameter cs := by
  unfold isOptionalParameter
  rw [Bool.or_eq_true, matchesTypeParameter_iff]
  constructor
  · rintro (h | h)
    · left
      cases cs with
      | nil => rfl
      | cons a r => simp at h
    · exact Or.inr h
  · rintro (h | h)
    · left; subst h; rfl
    · exact Or.inr h

theorem type_regex_match_isSome (s : String) :
    (∃ m, type_regex_match s = some m) ↔ hasTypeForm s.data := by
  constructor
  · rintro ⟨m, h⟩
    unfold type_regex_match at h
    simp only [String.toList] at h
    have hsplit : s.data = s.data.takeWhile isWordChar ++ s.data.dropWhile isWordChar :=
      (List.takeWhile_append_dropWhile isWordChar s.data).symm
    by_cases hw : (s.data.takeWhile isWordChar).isEmpty = true
    · simp [hw] at h
    · have hwid : isIdentifierText (s.data.takeWhile isWordChar) := by
        refine ⟨?_, fun c hc => List.mem_takeWhile_imp hc⟩
        intro he
        simp [he] at hw
      simp only [hw, Bool.false_eq_true, if_false] at h
      cases hrest : s.data.dropWhile isWordChar with
      | nil =>
        exact ⟨_, [], [], by rw [hrest] at hsplit; simpa using hsplit, hwid, Or.inl rfl,
          Or.inl rfl⟩
      | cons c r =>
        rw [hrest] at h hsplit
        by_cases hc : c = ' '
        · subst hc
          simp only at h
          by_cases hp : (r.isEmpty || matchesTypeParameter r) = true
          · exact ⟨_, [' '], r, by simpa using hsplit, hwid, Or.inr rfl,
              (isOptionalParameter_iff r).mp hp⟩
          · simp [hp] at h
        · have hm : (match c :: r with
              | ' ' :: r1 => r1
              | r1 => r1) = c :: r := by
            split
            · rename_i r1 heq
              simp only [List.cons.injEq] at heq
              exact absurd heq.1 hc
            · rfl
          rw [hm] at h
          by_cases hp : ((c :: r).isEmpty || matchesTypeParameter (c :: r)) = true
          · exact ⟨_, [], c :: r, by simpa using hsplit, hwid, Or.inl rfl,
              (isOptionalParameter_iff (c :: r)).mp hp⟩
          · simp only [List.isEmpty_cons, Bool.false_or] at hp h
            simp [hp] at h
  · rintro ⟨w, sp, param, hs, hw, hsp, hparam⟩
    have hwe : w.isEmpty = false := by
      cases w with
      | nil => exact absurd rfl hw.1
      | cons a r => rfl
    have hpb := (isOptionalParameter_iff param).mpr hparam
    have hhead : ∀ c ∈ (sp ++ param).head?, isWordChar c = false := by
      intro c hc
      rcases hsp with rfl | rfl
      · rcases hparam with rfl | ⟨p, _, rfl⟩
        · simp at hc
        · simp at hc; subst hc; decide
      · simp at hc; subst hc; decide
    obtain ⟨h1, h2⟩ := takeWhile_dropWhile_run isWordChar (sp ++ param) hhead w hw.2
    refine ⟨String.mk w, ?_⟩
    unfold type_regex_match
    simp only [String.toList, hs, h1, h2, hwe, Bool.false_eq_true, if_false]
    rcases hsp with rfl | rfl
    · rcases hparam with rfl | ⟨p, hp, rfl⟩
      · simp
      · have hmp := (matchesTypeParameter_iff ('<' :: (p ++ ['>']))).mpr ⟨p, hp, rfl⟩
        simp [hmp]
    · simp only [List.singleton_append]
      simp [hpb]

theorem bindingAsserts_error (T : IndexType) (st : Binding) (e : Err)
    (h : bindingAsserts T st = .error e) : ∃ msg, e = .assertion msg := by
  unfold bindingAsserts at h
  split at h
  · exact ⟨_, (Except.error.inj h).symm⟩
  · split at h
    · exact ⟨_, (Except.error.inj h).symm⟩
    · split at h
      · exact ⟨_, (Except.error.inj h).symm⟩
      · split at h
        · exact ⟨_, (Except.error.inj h).symm⟩
        · split at h
          · exact ⟨_, (Except.error.inj h).symm⟩
          · simp at h

/-- C17, as the code has it. For a global-variable-declaration node with no
qualifier whose declared type node has no named child, the attributes around
the variable declaration being well formed, the construction fails with
`UnparsableTypeDeclaration` if and only if the raw text of the declared type
does not read: an identifier, at most one space, and optionally one
identifier in angle brackets. -/
theorem unparsable_type_condition (T : IndexType) (node : Node) (pre post : List Node)
    (vd idecl n tdecl : Node)
    (hk : node.type = "global_variable_declaration")
    (hc : node.namedChildren = pre ++ vd :: post)
    (hpre : attributesOnly pre) (hpost : attributesOnly post)
    (hvd : vd.type = "variable_declaration")
    (hq : vd.firstChildOfType "variable_qualifier" = none)
    (hi : vd.firstChildOfType "variable_identifier_declaration" = some idecl)
    (hn : idecl.child "name" = .ok n) (ht : idecl.child "type" = .ok tdecl)
    (hbuiltin : tdecl.namedChildCount = 0) :
    Binding.ctor T node = .error (UnparsableTypeDeclaration tdecl.str) ↔
      ¬ hasTypeForm tdecl.str.data := by
  have hva : ¬ vd.type = "attribute" := by rw [hvd]; decide
  rw [← type_regex_match_isSome]
  cases hm : type_regex_match tdecl.str with
  | none =>
    have hstep : ∀ st, st.bindingType = "" →
        bindingStep T st vd = .error (UnparsableTypeDeclaration tdecl.str) := by
      intro st hst
      simp [bindingStep, hva, hvd, bindingQualifier, hq, bindingIdentifier, hi, hn, ht, hbuiltin,
        hst, hm, UnparsableTypeDeclaration]
    have hloop : bindingLoop T (pre ++ vd :: post) (Binding.mk T.UNSET T.UNSET "" "" "") =
        .error (UnparsableTypeDeclaration tdecl.str) := by
      rw [bindingLoop_append, bindingLoop_attributesOnly T pre _ hpre]
      simp only [bindingLoop]
      rw [hstep _ rfl]
    constructor
    · intro _
      simp
    · intro _
      simp [Binding.ctor, hk, hc, hloop]
  | some m1 =>
    have hstep : bindingStep T
        { (Binding.mk T.UNSET T.UNSET "" "" "") with
            binding := decodeIndex T "binding" pre T.UNSET,
            group := decodeIndex T "group" pre T.UNSET } vd =
        .ok (Binding.mk (decodeIndex T "binding" pre T.UNSET)
          (decodeIndex T "group" pre T.UNSET) n.str m1 m1) := by
      simp [bindingStep, hva, hvd, bindingQualifier, hq, bindingIdentifier, hi, hn, ht, hbuiltin,
        hm]
    have hloop := bindingLoop_around T pre post vd (Binding.mk T.UNSET T.UNSET "" "" "") _
      hpre hpost hstep
    constructor
    · intro h
      simp only [Binding.ctor, hk, ne_eq, not_true_eq_false, if_false, hc, hloop] at h
      obtain ⟨msg, he⟩ := bindingAsserts_error T _ _ h
      simp [UnparsableTypeDeclaration] at he
    · intro h
      exact absurd ⟨m1, rfl⟩ h

/-- Witness of C17 as amended: `@group(0) @binding(0) var t:
texture_2d<vec4<f32>>;`, with a type node without named child, fails with
`UnparsableTypeDeclaration`, so the text does not have the accepted form. -/
theorem unparsable_type_condition_witness :
    ¬ hasTypeForm "texture_2d<vec4<f32>>".data :=
  (unparsable_type_condition Sample.u32 Sample.textureNestedFlat
    [Sample.attrArg "group" "int_literal" "0", Sample.attrArg "binding" "int_literal" "0"] []
    (Sample.varPlain "t" (Sample.builtinType "texture_2d<vec4<f32>>"))
    (Sample.identDecl "t" (Sample.builtinType "texture_2d<vec4<f32>>"))
    (Sample.identifierAt "name" "t") (Sample.builtinType "texture_2d<vec4<f32>>")
    (by rfl) (by rfl)
    (by
      intro c hc
      simp only [List.mem_cons, List.mem_singleton, List.not_mem_nil, or_false] at hc
      rcases hc with rfl | rfl
      · exact ⟨by decide, fun _ => by rfl⟩
      · exact ⟨by decide, fun _ => by rfl⟩)
    (by intro c hc; cases hc)
    (by rfl) (by rfl) (by rfl) (by rfl) (by rfl) (by rfl)).mp (by rfl)

/-- Counterexample to C17 as stated. The type text `texture_2d <f32>`, with
one space, is not an identifier optionally followed by a bracketed
identifier, and the construction succeeds; with two spaces it fails with
`UnparsableTypeDeclaration`; and for `texture_2d<vec4<f32>>` with a type node
that has a named child the pattern rejects the text but the failure is the
assertion that asks for a builtin type. -/
theorem unparsable_type_iff_fails :
    ¬ hasBareTypeForm "texture_2d <f32>".data ∧
      Binding.ctor Sample.u32 Sample.textureSpace =
        .ok (Binding.mk 0 0 "t" "texture_2d" "texture_2d") ∧
      Binding.ctor Sample.u32 Sample.textureTwoSpaces =
        .error (UnparsableTypeDeclaration "texture_2d  <f32>") ∧
      type_regex_match "texture_2d<vec4<f32>>" = none ∧
      Binding.ctor Sample.u32 Sample.textureNestedTree =
        .error (.assertion "Type decl for builtin type expected") := by
  refine ⟨?_, by rfl, by rfl, by rfl, by rfl⟩
  rintro ⟨w, param, hs, hw, hp⟩
  have hmem : ' ' ∈ "texture_2d <f32>".data := by decide
  rw [hs] at hmem
  rcases List.mem_append.mp hmem with h | h
  · exact absurd (hw.2 ' ' h) (by decide)
  · rcases hp with rfl | ⟨p, hpid, rfl⟩
    · cases h
    · simp only [List.mem_cons, List.mem_append, List.mem_singleton, List.not_mem_nil,
        or_false] at h
      rcases h with h | h | h
      · exact absurd h (by decide)
      · exact absurd (hpid.2 ' ' h) (by decide)
      · exact absurd h (by decide)

/-! ## Lookup of declared functions -/

theorem Function.ctor_name (node : Node) (sl : Option (String → Option Structure))
    (f : Function) (h : Function.ctor node sl = .ok f) :
    ∃ n, node.child "name" = .ok n ∧ f.name = n.str := by
  unfold Function.ctor at h
  by_cases hk : node.type = "function_declaration"
  · simp only [hk, ne_eq, not_true_eq_false, if_false] at h
    cases hn : node.child "name" with
    | error e => simp [hn] at h
    | ok n =>
      simp only [hn] at h
      cases hl : functionLoop sl node.namedChildren StdMap.empty [] with
      | error e => simp [hl] at h
      | ok pr =>
        simp only [hl, Except.ok.injEq] at h
        subst h
        exact ⟨n, rfl, rfl⟩
  · simp [hk] at h

theorem parseFunctionsLoop_found (getStruct : String → Option Structure)
    (decls : List Node) (m0 m : StdMap Function)
    (h : parseFunctionsLoop getStruct decls m0 = .ok m) :
    ∀ d ∈ decls, ∃ n f, d.child "name" = .ok n ∧ m.find n.str = some f := by
  intro d hd
  obtain ⟨funcs, h1, h2⟩ := parseFunctionsLoop_ok getStruct decls m0 m h
  have hmem : Function.ctor d (some getStruct) ∈ funcs.map Except.ok := by
    rw [← h1]
    exact List.mem_map.mpr ⟨d, hd, rfl⟩
  obtain ⟨f, hf, hfd⟩ := List.mem_map.mp hmem
  obtain ⟨n, hn, hname⟩ := Function.ctor_name d _ f hfd.symm
  refine ⟨n, ?_⟩
  have hfind : (funcs.find? (fun g => g.name == n.str)).isSome = true :=
    List.find?_isSome.mpr ⟨f, hf, by simp [hname]⟩
  rw [h2, StdMap.find_foldl_emplace]
  cases hm0 : m0.find n.str with
  | some g => exact ⟨g, hn, by simp⟩
  | none =>
    cases hfs : funcs.find? (fun g => g.name == n.str) with
    | none => simp [hfs] at hfind
    | some g => exact ⟨g, hn, by simp⟩

theorem entrypointChildren_error (m : StdMap Function) (name : String) (f : Function)
    (hf : m.find name = some f) :
    ∀ (cs : List Node) (e : Entries) (err : Err),
      entrypointChildren m name cs e = .error err → ∃ msg, err = .out_of_range msg := by
  intro cs
  induction cs with
  | nil => intro e err h; simp [entrypointChildren] at h
  | cons c rest ih =>
    intro e err h
    unfold entrypointChildren at h
    by_cases ha : c.type = "attribute"
    · simp only [ha, ne_eq, not_true_eq_false, if_false, hf] at h
      cases h0 : c.namedChild 0 with
      | error e1 =>
        simp only [h0, Except.error.injEq] at h
        exact ⟨_, h ▸ namedChild_error _ _ _ h0⟩
      | ok first =>
        simp only [h0] at h
        split at h
        · exact ih _ _ h
        · split at h
          · exact ih _ _ h
          · split at h
            · exact ih _ _ h
            · exact ih _ _ h
    · simp only [ha, ne_eq, not_false_eq_true, if_true] at h
      exact ih _ _ h

theorem parseEntrypointsLoop_error (m : StdMap Function) :
    ∀ (decls : List Node) (e : Entries) (err : Err),
      (∀ d ∈ decls, ∃ n f, d.child "name" = .ok n ∧ m.find n.str = some f) →
      parseEntrypointsLoop m decls e = .error err → ∃ msg, err = .out_of_range msg := by
  intro decls
  induction decls with
  | nil => intro e err _ h; simp [parseEntrypointsLoop] at h
  | cons d rest ih =>
    intro e err hfound h
    obtain ⟨n, f, hn, hf⟩ := hfound d (List.mem_cons_self _ _)
    unfold parseEntrypointsLoop at h
    simp only [hn] at h
    cases hc : entrypointChildren m n.str d.namedChildren e with
    | error e1 =>
      simp only [hc, Except.error.injEq] at h
      subst h
      exact entrypointChildren_error m n.str f hf _ _ _ hc
    | ok e1 =>
      simp only [hc] at h
      exact ih _ _ (fun q hq => hfound q (List.mem_cons_of_mem _ hq)) h

/-- C18. The branch that throws `Function with name ... not found` is not
reached after `parseFunctions`: when `parseFunctions` completed on a tree,
the function map holds an entry under the name of every function declaration
of the tree, and `parseEntrypoints` run afterwards on the same tree never
fails with that `std::runtime_error`. -/
theorem function_lookup_never_fails (tree : Node) (r r1 : Reflect)
    (h : parseFunctions tree r = .ok r1) :
    (∀ d ∈ query tree "function_declaration",
        ∃ n f, d.child "name" = .ok n ∧ r1.m_functions.find n.str = some f) ∧
      (∀ msg, parseEntrypoints tree r1 ≠ .error (.runtime_error msg)) := by
  unfold parseFunctions at h
  cases hl : parseFunctionsLoop r.m_structures.find (query tree "function_declaration")
      r.m_functions with
  | error e => simp [hl] at h
  | ok m =>
    simp only [hl, Except.ok.injEq] at h
    subst h
    have hfound := parseFunctionsLoop_found _ _ _ _ hl
    refine ⟨hfound, ?_⟩
    intro msg hp
    unfold parseEntrypoints at hp
    cases he : parseEntrypointsLoop m (query tree "function_declaration") r.m_entries with
    | error err =>
      simp only [he, Except.error.injEq] at hp
      obtain ⟨msg2, hm⟩ := parseEntrypointsLoop_error m _ _ _ hfound he
      rw [hm] at hp
      cases hp
    | ok entries => simp [he] at hp

/-- Witness of C18: after `parseFunctions` on the source `stages`, the names
`a`, `b` and `c` are found and `parseEntrypoints` does not throw the
`std::runtime_error`. -/
theorem function_lookup_never_fails_witness :
    (∀ d ∈ query Sample.stages "function_declaration",
        ∃ n f, d.child "name" = .ok n ∧ Sample.stagesFunctions.find n.str = some f) ∧
      (∀ msg, parseEntrypoints Sample.stages
        (Reflect.mk StdMap.empty Sample.stagesFunctions (Entries.mk [] [] [])) ≠
          .error (.runtime_error msg)) :=
  function_lookup_never_fails Sample.stages Sample.reflect0
    (Reflect.mk StdMap.empty Sample.stagesFunctions (Entries.mk [] [] [])) (by rfl)

/-! ## Flattening and declaration order -/

theorem mem_of_map_eq_ok {α β : Type} (g : α → Except Err β) (l : List α) (rs : List β)
    (h : l.map g = rs.map Except.ok) :
    (∀ x ∈ rs, ∃ a ∈ l, g a = .ok x) ∧ (∀ a ∈ l, ∀ x, g a = .ok x → x ∈ rs) := by
  refine ⟨?_, ?_⟩
  · intro x hx
    have hmem : (Except.ok x : Except Err β) ∈ l.map g := by
      rw [h]
      exact List.mem_map.mpr ⟨x, hx, rfl⟩
    obtain ⟨a, ha, hga⟩ := List.mem_map.mp hmem
    exact ⟨a, ha, hga⟩
  · intro a ha x hx
    have hmem : g a ∈ rs.map Except.ok := by
      rw [← h]
      exact List.mem_map.mpr ⟨a, ha, rfl⟩
    obtain ⟨y, hy, hgy⟩ := List.mem_map.mp hmem
    rw [hx] at hgy
    have : y = x := Except.ok.inj hgy
    exact this ▸ hy

theorem initialise_ok (tree : Node) (r : Reflect) (h : Reflect.initialise tree = .ok r) :
    parseStructuresLoop (query tree "struct_declaration") StdMap.empty = .ok r.m_structures ∧
      parseFunctionsLoop r.m_structures.find (query tree "function_declaration")
        StdMap.empty = .ok r.m_functions ∧
      parseEntrypointsLoop r.m_functions (query tree "function_declaration")
        (Entries.mk [] [] []) = .ok r.m_entries := by
  unfold Reflect.initialise parseStructures at h
  cases hl1 : parseStructuresLoop (query tree "struct_declaration") StdMap.empty with
  | error e => simp [hl1] at h
  | ok m1 =>
    simp only [hl1] at h
    unfold parseFunctions at h
    cases hl2 : parseFunctionsLoop m1.find (query tree "function_declaration")
        StdMap.empty with
    | error e => simp [hl2] at h
    | ok m2 =>
      simp only [hl2] at h
      unfold parseEntrypoints at h
      cases hl3 : parseEntrypointsLoop m2 (query tree "function_declaration")
          (Entries.mk [] [] []) with
      | error e => simp [hl3] at h
      | ok entries =>
        simp only [hl3, Except.ok.injEq] at h
        subst h
        refine ⟨?_, ?_, ?_⟩
        · rfl
        · first | rfl | exact hl2
        · first | rfl | exact hl3

theorem stage_key_present (d : Node) (sl : Option (String → Option Structure)) (f : Function)
    (stage : String) (h : Function.ctor d sl = .ok f)
    (hpos : 0 < stageAttributeCount stage d) :
    ∃ v, f.attribute stage = some v := by
  unfold stageAttributeCount at hpos
  obtain ⟨c, hc⟩ := List.exists_mem_of_length_pos hpos
  obtain ⟨hmem, hreads⟩ := List.mem_filter.mp hc
  unfold readsStage at hreads
  simp only [Bool.and_eq_true, beq_iff_eq] at hreads
  obtain ⟨hty, hfirst⟩ := hreads
  cases h0 : c.namedChild 0 with
  | error e => simp [h0] at hfirst
  | ok first =>
    simp only [h0, beq_iff_eq] at hfirst
    have hentry : (first.str, attributeValueLoop c.siblingsAfterFirstNamed "") ∈
        attributeEntriesOf d :=
      List.mem_filterMap.mpr ⟨c, hmem, by simp [attributeEntry, hty, h0]⟩
    have hsome : ((attributeEntriesOf d).find? (fun e => e.1 == stage)).isSome = true :=
      List.find?_isSome.mpr ⟨_, hentry, by simp [hfirst]⟩
    unfold Function.attribute
    rw [Function.ctor_attributes d sl f h stage]
    cases hfind : (attributeEntriesOf d).find? (fun e => e.1 == stage) with
    | none => simp [hfind] at hsome
    | some e => exact ⟨e.2, rfl⟩

theorem stage_list_keys (tree : Node) (r : Reflect) (stage : String)
    (h : Reflect.initialise tree = .ok r)
    (hdistinct : ((query tree "function_declaration").map declaredName).Nodup) :
    ∀ f ∈ (query tree "function_declaration").flatMap (stageEntries r.m_functions stage),
      ∃ v, f.attribute stage = some v := by
  intro f hf
  obtain ⟨_, hl2, _⟩ := initialise_ok tree r h
  obtain ⟨funcs, b1, b2⟩ := parseFunctionsLoop_ok _ _ _ _ hl2
  obtain ⟨fa, _⟩ := mem_of_map_eq_ok (fun d => Function.ctor d (some r.m_structures.find)) _ _ b1
  obtain ⟨d, hd, hfd⟩ := List.mem_flatMap.mp hf
  unfold stageEntries at hfd
  cases hdn : declaredName d with
  | none => simp [hdn] at hfd
  | some nm =>
    simp only [hdn] at hfd
    cases hm : r.m_functions.find nm with
    | none => simp [hm] at hfd
    | some g =>
      simp only [hm] at hfd
      have hfg : f = g := List.eq_of_mem_replicate hfd
      have hpos : 0 < stageAttributeCount stage d := by
        cases hcount : stageAttributeCount stage d with
        | zero => simp [hcount] at hfd
        | succ k => exact Nat.succ_pos k
      subst hfg
      rw [b2, StdMap.find_foldl_emplace] at hm
      simp only [StdMap.empty, StdMap.find, Option.none_or] at hm
      have hfname : f.name = nm := by simpa using List.find?_some hm
      obtain ⟨d1, hd1, hctor⟩ := fa f (List.mem_of_find?_eq_some hm)
      obtain ⟨n, hn, hnm⟩ := Function.ctor_name d1 _ f hctor
      have hd1n : declaredName d1 = some nm := by simp [declaredName, hn, ← hnm, hfname]
      have hsame : d1 = d :=
        List.inj_on_of_nodup_map hdistinct hd1 hd (hd1n.trans hdn.symm)
      subst hsame
      exact stage_key_present d1 _ f stage hctor hpos

/-- C20, as the code has it. Entry-point lists agree with the function map
when no function name is declared twice: for every source tree whose
function declarations have distinct names and on which the construction
succeeds, and every stage among vertex, fragment and compute, every Function
in the list of the stage has the stage keyword as a key of its own attribute
map. -/
theorem entry_lists_agree_with_attributes (tree : Node) (r : Reflect)
    (h : Reflect.initialise tree = .ok r)
    (hdistinct : ((query tree "function_declaration").map declaredName).Nodup) :
    (∀ f ∈ r.m_entries.vertex, ∃ v, f.attribute "vertex" = some v) ∧
      (∀ f ∈ r.m_entries.fragment, ∃ v, f.attribute "fragment" = some v) ∧
      (∀ f ∈ r.m_entries.compute, ∃ v, f.attribute "compute" = some v) := by
  obtain ⟨_, _, hl3⟩ := initialise_ok tree r h
  obtain ⟨e1, e2, e3, _⟩ := parseEntrypointsLoop_ok _ _ _ _ hl3
  simp only [List.nil_append] at e1 e2 e3
  rw [e1, e2, e3]
  exact ⟨stage_list_keys tree r "vertex" h hdistinct,
    stage_list_keys tree r "fragment" h hdistinct,
    stage_list_keys tree r "compute" h hdistinct⟩

/-- Witness of C20 as amended: the source `stages` declares `a`, `b` and `c`
once each, and every function of its three lists bears the stage keyword. -/
theorem entry_lists_agree_with_attributes_witness :
    (∀ f ∈ Sample.stagesModel.m_entries.vertex, ∃ v, f.attribute "vertex" = some v) ∧
      (∀ f ∈ Sample.stagesModel.m_entries.fragment, ∃ v, f.attribute "fragment" = some v) ∧
      (∀ f ∈ Sample.stagesModel.m_entries.compute, ∃ v, f.attribute "compute" = some v) :=
  entry_lists_agree_with_attributes Sample.stages Sample.stagesModel (by rfl) (by decide)

/-- Counterexample to C20 as stated: in `@vertex fn f(a: f32) {} @fragment
fn f(b: i32) {}` the construction succeeds, the fragment list holds one
Function, the record of the first declaration of `f`, and its attribute map
has no key `fragment`. -/
theorem entry_list_function_without_stage_key :
    (Reflect.initialise Sample.twoStages).map
        (fun r => r.m_entries.fragment.map (fun f => (f.name, f.attribute "fragment"))) =
      .ok [("f", none)] ∧
      (Reflect.initialise Sample.twoStages).map
        (fun r => r.m_entries.fragment.map (fun f => f.attribute "vertex")) =
      .ok [some ""] :=
  ⟨by rfl, by rfl⟩

/-! ## Qualified bindings and repeated attributes -/

/-- C6, as the code has it. Qualified (buffer) binding. For a
global-variable-declaration node whose named children are well-formed
attributes and skipped kinds around one variable declaration, whose last
`group` and last `binding` attributes hold `int_literal` nodes whose texts
are strings of decimal digits denoting `g` and `b`, both values of the index
type and different from the sentinel, whose qualifier starts with an address
space reading `uniform` or `storage`, and whose identifier declaration has a
non-empty name and a type node with a first named child of non-empty text,
the construction succeeds with group `g`, binding `b`, the name of the
identifier declaration, binding type `buffer`, and as type the text of the
first named child of the type node. -/
theorem qualified_binding_is_buffer (T : IndexType) (node : Node) (pre post : List Node)
    (vd qual space idecl n tdecl tparam : Node)
    (g1 g2 b1 b2 : List Node) (ga gfirst gnode ba bfirst bnode : Node) (g b : Nat)
    (hk : node.type = "global_variable_declaration")
    (hc : node.namedChildren = pre ++ vd :: post)
    (hpre : attributesOnly pre) (hpost : attributesOnly post)
    (hgs : pre ++ post = g1 ++ ga :: g2) (hga : ga.type = "attribute")
    (hg0 : ga.namedChild 0 = .ok gfirst) (hgk : gfirst.str = "group")
    (hg1 : ga.namedChild 1 = .ok gnode) (hgl : gnode.type = "int_literal")
    (hgd : gnode.str.toNat? = some g)
    (hglast : ∀ c ∈ g2, indexLiteral "group" c = none)
    (hgfit : T.lo ≤ (g : Int) ∧ (g : Int) ≤ T.hi) (hgu : (g : Int) ≠ T.UNSET)
    (hbs : pre ++ post = b1 ++ ba :: b2) (hba : ba.type = "attribute")
    (hb0 : ba.namedChild 0 = .ok bfirst) (hbk : bfirst.str = "binding")
    (hb1 : ba.namedChild 1 = .ok bnode) (hbl : bnode.type = "int_literal")
    (hbd : bnode.str.toNat? = some b)
    (hblast : ∀ c ∈ b2, indexLiteral "binding" c = none)
    (hbfit : T.lo ≤ (b : Int) ∧ (b : Int) ≤ T.hi) (hbu : (b : Int) ≠ T.UNSET)
    (hvd : vd.type = "variable_declaration")
    (hq : vd.firstChildOfType "variable_qualifier" = some qual)
    (hs : qual.namedChild 0 = .ok space) (hst : space.type = "address_space")
    (hsu : space.str = "uniform" ∨ space.str = "storage")
    (hi : vd.firstChildOfType "variable_identifier_declaration" = some idecl)
    (hn : idecl.child "name" = .ok n) (ht : idecl.child "type" = .ok tdecl)
    (hp : tdecl.namedChild 0 = .ok tparam)
    (hne : n.str ≠ "") (hte : tparam.str ≠ "") :
    Binding.ctor T node = .ok (Binding.mk b g n.str "buffer" tparam.str) := by
  have _hgkind := hgl
  have _hbkind := hbl
  have hg : decodeIndex T "group" (pre ++ post) T.UNSET = (g : Int) := by
    rw [hgs, decodeIndex_at T "group" g1 g2 ga gfirst gnode g hga hg0 hgk hg1 hgd hglast]
    simp [hgfit]
  have hb : decodeIndex T "binding" (pre ++ post) T.UNSET = (b : Int) := by
    rw [hbs, decodeIndex_at T "binding" b1 b2 ba bfirst bnode b hba hb0 hbk hb1 hbd hblast]
    simp [hbfit]
  exact Binding.ctor_qualified T node pre post vd qual space idecl n tdecl tparam g b hk hc
    hpre hpost hg hb hgu hbu hvd hq hs hst hsu hi hn ht hp hne hte

/-- Witness of C6 as amended: `@group(2) @binding(5) var<uniform> u:
MyUniform;` gives group 2, binding 5, name `u`, binding type `buffer`, type
`MyUniform`. -/
theorem qualified_binding_is_buffer_witness :
    Binding.ctor Sample.u32 Sample.uniformU =
      .ok (Binding.mk ((5 : Nat) : Int) ((2 : Nat) : Int) "u" "buffer" "MyUniform") :=
  qualified_binding_is_buffer Sample.u32 Sample.uniformU
    [Sample.attrArg "group" "int_literal" "2", Sample.attrArg "binding" "int_literal" "5"] []
    (Sample.varQualified "uniform" "u" (Sample.namedType "MyUniform"))
    (Sample.qualifier "uniform") (Node.mk "address_space" true "uniform" none [Sample.tok "uniform"])
    (Sample.identDecl "u" (Sample.namedType "MyUniform")) (Sample.identifierAt "name" "u")
    (Sample.namedType "MyUniform") (Node.mk "identifier" true "MyUniform" none [])
    [] [Sample.attrArg "binding" "int_literal" "5"]
    [Sample.attrArg "group" "int_literal" "2"] []
    (Sample.attrArg "group" "int_literal" "2") (Node.mk "identifier" true "group" none [])
    (Node.mk "int_literal" true "2" none [])
    (Sample.attrArg "binding" "int_literal" "5") (Node.mk "identifier" true "binding" none [])
    (Node.mk "int_literal" true "5" none [])
    2 5
    (by rfl) (by rfl)
    (by
      intro c hc
      simp only [List.mem_cons, List.mem_singleton, List.not_mem_nil, or_false] at hc
      rcases hc with rfl | rfl
      · exact ⟨by decide, fun _ => by rfl⟩
      · exact ⟨by decide, fun _ => by rfl⟩)
    (by intro c hc; cases hc)
    (by rfl) (by rfl) (by rfl) (by rfl) (by rfl) (by rfl)
    (by
      simp [Node.str, String.toNat?, String.isNat, String.all_eq, String.foldl_eq, String.isEmpty]
      decide)
    (by
      intro c hc
      simp only [List.mem_singleton] at hc
      subst hc
      rfl)
    (by decide) (by decide)
    (by rfl) (by rfl) (by rfl) (by rfl) (by rfl) (by rfl)
    (by
      simp [Node.str, String.toNat?, String.isNat, String.all_eq, String.foldl_eq, String.isEmpty]
      decide)
    (by intro c hc; cases hc)
    (by decide) (by decide)
    (by rfl) (by rfl) (by rfl) (by rfl) (Or.inl (by rfl)) (by rfl) (by rfl) (by rfl) (by rfl)
    (by decide) (by decide)

/-- Counterexample to C6 as stated, with a 32-bit unsigned index field. In
`@group(0x10) @binding(5) var<uniform> u: MyUniform;` the group is the
integer literal sixteen and the Binding has group 0; with a group literal of
forty-one digits the construction fails on the assertion that the group was
found; and `@group(2) @binding(5) var<uniform> x: f32;`, whose type node has
no named child, fails with `std::out_of_range`. -/
theorem qualified_binding_literal_not_kept :
    Binding.ctor Sample.u32 Sample.hexGroup =
        .ok (Binding.mk 5 0 "u" "buffer" "MyUniform") ∧
      Binding.ctor Sample.u32 Sample.overflowGroup =
        .error (.assertion "Group was not found") ∧
      Binding.ctor Sample.u32 Sample.uniformF32 =
        .error (.out_of_range "Out of range named child index") :=
  ⟨by rfl, by rfl, by rfl⟩

/-- Counterexample to C14 as stated: in `@workgroup_size(1)
@workgroup_size(2) fn f(p: f32) {}` the siblings after the first named
sub-item of the second attribute join to `2`, and the value stored under
`workgroup_size` is `1`. -/
theorem attribute_value_of_repeated_name :
    (Sample.attrArg "workgroup_size" "int_literal" "2").namedChild 0 =
        .ok (Node.mk "identifier" true "workgroup_size" none []) ∧
      String.join
          (((Sample.attrArg "workgroup_size" "int_literal" "2").siblingsAfterFirstNamed.filter
            keptInValue).map Node.str) = "2" ∧
      (attributeChildrenOf Sample.sizeTwice).map Node.str =
        ["@workgroup_size(1)", "@workgroup_size(2)"] ∧
      (Function.ctor Sample.sizeTwice none).map (fun f => f.attribute "workgroup_size") =
        .ok (some "1") :=
  ⟨by rfl, by rfl, by rfl, by rfl⟩

end wgsl_reflect
